import Mathlib

/-!
Verification of the plan-construction core of `sqlglot/dataframe/sql/dataframe.py`
(the lazy DataFrame-to-SQL translator): lineage tracking, CTE materialization,
deterministic CTE naming, deferred-hint resolution, join/set-operation column
reconciliation and null-handling transforms.

The Python code is embedded shallowly: expression trees become inductive values,
the mutating "copy, mutate the copy, return it" idiom becomes explicit state
passing, fresh-name generation becomes a counter threaded through a `Session`
value, and raising code returns `Except`.
-/

namespace SqlglotDF

/-- Scalar bodies of projection items and boolean conditions, mirroring the
subset of `sqlglot.expressions` nodes that the dataframe layer builds:
column references, literals, `NULL`, `CASE WHEN c IS NULL THEN a ELSE b END`
(built by `F.when(column.isNull(), ...).otherwise(...)`), addition, `<`,
equality and conjunction. -/
inductive PBody where
  | colRef (table : Option String) (name : String)
  | lit (n : Int)
  | nullLit
  | caseNull (scrut thenB elseB : PBody)
  | add (a b : PBody)
  | lt (a b : PBody)
  | eqB (a b : PBody)
  | andB (a b : PBody)
deriving DecidableEq, Repr

/-- One item of a `SELECT` projection list: a star (`*`, optionally aliased via
`set("alias", ...)`), a possibly table-qualified column, or an aliased scalar
expression. -/
inductive ProjItem where
  | star (al : Option String)
  | col (table : Option String) (name : String)
  | aliased (body : PBody) (al : String)
deriving DecidableEq, Repr

/-- `Expression.alias_or_name`: the alias when present, otherwise the name
(`exp.Star.name` is the text of a star, rendered as it prints). -/
def ProjItem.aliasOrName : ProjItem → String
  | .star al => al.getD "*"
  | .col _ n => n
  | .aliased _ al => al

/-- A pending hint: `exp.JoinHint` (strategy plus a list of target references,
each reference carrying an alias-or-name that can be rewritten) or a
partition-class `exp.Anonymous` hint. -/
inductive PendingHint where
  | joinHint (strategy : String) (targets : List String)
  | partitionHint (name : String)
deriving DecidableEq, Repr

def PendingHint.isJoinHint : PendingHint → Bool
  | .joinHint _ _ => true
  | _ => false

def PendingHint.isPartitionHint : PendingHint → Bool
  | .partitionHint _ => true
  | _ => false

/-- A `SELECT` expression: projection list, `FROM` table, joined table names,
`WHERE` conjuncts, the ordered `WITH` list of CTEs (alias, branch id,
sequence id, body — the out-of-band lineage metadata the dataframe layer
attaches via `cte.set("branch_id", ...)` / `cte.set("sequence_id", ...)`),
and the attached hint clause. CTE bodies are themselves `SELECT`s, hence the
nested inductive. -/
inductive SelectExpr where
  | mk (projs : List ProjItem) (fromTbl : Option String) (joins : List String)
       (whereCls : List PBody) (ctes : List (String × String × String × SelectExpr))
       (hints : List PendingHint)
deriving Repr

def SelectExpr.projs : SelectExpr → List ProjItem
  | .mk p _ _ _ _ _ => p

def SelectExpr.fromTbl : SelectExpr → Option String
  | .mk _ f _ _ _ _ => f

def SelectExpr.joins : SelectExpr → List String
  | .mk _ _ j _ _ _ => j

def SelectExpr.whereCls : SelectExpr → List PBody
  | .mk _ _ _ w _ _ => w

def SelectExpr.ctes : SelectExpr → List (String × String × String × SelectExpr)
  | .mk _ _ _ _ c _ => c

def SelectExpr.hints : SelectExpr → List PendingHint
  | .mk _ _ _ _ _ h => h

def SelectExpr.withProjs (e : SelectExpr) (p : List ProjItem) : SelectExpr :=
  .mk p e.fromTbl e.joins e.whereCls e.ctes e.hints

def SelectExpr.withCtes (e : SelectExpr) (c : List (String × String × String × SelectExpr)) :
    SelectExpr :=
  .mk e.projs e.fromTbl e.joins e.whereCls c e.hints

def SelectExpr.withHints (e : SelectExpr) (h : List PendingHint) : SelectExpr :=
  .mk e.projs e.fromTbl e.joins e.whereCls e.ctes h

def SelectExpr.withFrom (e : SelectExpr) (f : Option String) : SelectExpr :=
  .mk e.projs f e.joins e.whereCls e.ctes e.hints

def SelectExpr.withWhere (e : SelectExpr) (w : List PBody) : SelectExpr :=
  .mk e.projs e.fromTbl e.joins w e.ctes e.hints

def emptySelect : SelectExpr := .mk [] none [] [] [] []

@[simp] lemma SelectExpr.hints_withHints (e : SelectExpr) (h : List PendingHint) :
    (e.withHints h).hints = h := by cases e; rfl

@[simp] lemma SelectExpr.projs_withHints (e : SelectExpr) (h : List PendingHint) :
    (e.withHints h).projs = e.projs := by cases e; rfl

@[simp] lemma SelectExpr.ctes_withHints (e : SelectExpr) (h : List PendingHint) :
    (e.withHints h).ctes = e.ctes := by cases e; rfl

@[simp] lemma SelectExpr.projs_withProjs (e : SelectExpr) (p : List ProjItem) :
    (e.withProjs p).projs = p := by cases e; rfl

@[simp] lemma SelectExpr.ctes_withProjs (e : SelectExpr) (p : List ProjItem) :
    (e.withProjs p).ctes = e.ctes := by cases e; rfl

@[simp] lemma SelectExpr.projs_withCtes (e : SelectExpr)
    (c : List (String × String × String × SelectExpr)) :
    (e.withCtes c).projs = e.projs := by cases e; rfl

@[simp] lemma SelectExpr.ctes_withCtes (e : SelectExpr)
    (c : List (String × String × String × SelectExpr)) :
    (e.withCtes c).ctes = c := by cases e; rfl

@[simp] lemma SelectExpr.projs_withFrom (e : SelectExpr) (f : Option String) :
    (e.withFrom f).projs = e.projs := by cases e; rfl

@[simp] lemma SelectExpr.ctes_withFrom (e : SelectExpr) (f : Option String) :
    (e.withFrom f).ctes = e.ctes := by cases e; rfl

@[simp] lemma SelectExpr.projs_withWhere (e : SelectExpr) (w : List PBody) :
    (e.withWhere w).projs = e.projs := by cases e; rfl

@[simp] lemma SelectExpr.whereCls_withWhere (e : SelectExpr) (w : List PBody) :
    (e.withWhere w).whereCls = w := by cases e; rfl

@[simp] lemma SelectExpr.ctes_withWhere (e : SelectExpr) (w : List PBody) :
    (e.withWhere w).ctes = e.ctes := by cases e; rfl

/-- `Select.named_selects`: the output column names of the top-level
projection, in order. -/
def SelectExpr.namedSelects (e : SelectExpr) : List String :=
  e.projs.map ProjItem.aliasOrName

/-- A plan (`DataFrame`) value: AST root, lineage tokens, pending hints.
(`last_op` drives only the materialization gate of the `@operation` decorator,
which lives outside the translated file; it is not part of the claims below.) -/
structure Plan where
  expression : SelectExpr
  branchId : String
  sequenceId : String
  pendingHints : List PendingHint
deriving Repr

/-- The session-scoped state: the fresh-token counter behind
`_random_name` / `_random_branch_id` / `_random_sequence_id`, and the
append-only alias registry `name_to_sequence_id_mapping`. -/
structure Session where
  ctr : Nat
  nameToSequenceId : List (String × List String)
deriving Repr

def Session.freshName (s : Session) : String × Session :=
  ("r" ++ toString s.ctr, { s with ctr := s.ctr + 1 })

/-- `name_to_sequence_id_mapping[name]` lookup; `none` when `name` is not a
registered alias. -/
def Session.lookupAlias (s : Session) (name : String) : Option (List String) :=
  (s.nameToSequenceId.find? (fun p => p.1 = name)).map Prod.snd

/-- `SparkSession._add_alias_to_mapping(name, sequence_id)`: append the fresh
sequence id to the alias's entry. Modelled from the spec: the session module
is outside the translated file; the spec describes "a session-scoped mapping
from user alias → set of sequence-ids, appended to by the alias operation,
never pruned". -/
def Session.addAliasToMapping (s : Session) (name seqId : String) : Session :=
  match s.nameToSequenceId.find? (fun p => p.1 = name) with
  | some _ =>
      { s with nameToSequenceId :=
          s.nameToSequenceId.map (fun p => if p.1 = name then (p.1, p.2 ++ [seqId]) else p) }
  | none => { s with nameToSequenceId := s.nameToSequenceId ++ [(name, [seqId])] }

/-- Insertion-ordered key deduplication, the effect of Python's
`dict.fromkeys` / dict-comprehension key order: keep the first occurrence of
each element, in first-seen order. -/
def firstDedup {α : Type} [DecidableEq α] (l : List α) : List α :=
  l.foldl (fun acc x => if x ∈ acc then acc else acc ++ [x]) []

/-- `DataFrame._get_outer_select_columns`: the projection items of the
outermost `SELECT`, deduplicated by structural equality in first-seen order
(`dict.fromkeys` over expression nodes). -/
def getOuterSelectColumns (e : SelectExpr) : List ProjItem :=
  firstDedup e.projs

section JoinColumns

/-- A column qualified to the relation it is resolved against
(`Column.set_table_name`): output name plus table qualifier. -/
structure QCol where
  name : String
  table : String
deriving DecidableEq, Repr

/-- The value chosen by the Python dict comprehension
`{c.alias_or_name: c for c in l}`: the **last** element of `l` with the given
key wins, because later assignments overwrite earlier ones. -/
def lookupLast (l : List QCol) (n : String) : Option QCol :=
  (l.filter (fun c => c.name = n)).getLast?

/-- `DataFrame.join` lines 321–322: the output projection of a join.
`column_value_mapping` is keyed by name over `other_columns + self_columns +
join_columns` (later overwrite), and the output order is the first-seen order
of names over `join_columns + self_columns + other_columns`. -/
def joinOutputColumns (joinCols selfCols otherCols : List QCol) : List QCol :=
  let ordered := firstDedup ((joinCols ++ selfCols ++ otherCols).map QCol.name)
  ordered.filterMap (lookupLast (otherCols ++ selfCols ++ joinCols))

/-- The same projection described category-first: for each name in first-seen
order, a join column wins if one exists, else a left (self) column, else a
right (other) column — within a category the last occurrence wins, matching
dict overwrite. This is the corrected precedence (join > left > right). -/
def joinOutputColumnsSpec (joinCols selfCols otherCols : List QCol) : List QCol :=
  let ordered := firstDedup ((joinCols ++ selfCols ++ otherCols).map QCol.name)
  ordered.filterMap (fun n =>
    match lookupLast joinCols n with
    | some c => some c
    | none =>
      match lookupLast selfCols n with
      | some c => some c
      | none => lookupLast otherCols n)

/-- The projection the claim describes, with join > **right** > left
precedence: a name in both side lists resolves to the right-side column. -/
def joinOutputColumnsClaim (joinCols selfCols otherCols : List QCol) : List QCol :=
  let ordered := firstDedup ((joinCols ++ selfCols ++ otherCols).map QCol.name)
  ordered.filterMap (fun n =>
    match lookupLast joinCols n with
    | some c => some c
    | none =>
      match lookupLast otherCols n with
      | some c => some c
      | none => lookupLast selfCols n)

/-- `DataFrame.join` for a shared-column-names condition, column-list level:
the name-list is qualified to the left plan's latest CTE name to form
`join_columns`, the two plans' outer select columns are qualified to their
relations, and the output projection is assembled as in lines 321–322. -/
def joinProjection (onNames : List String) (leftTbl rightTbl : String)
    (selfNames otherNames : List String) : List QCol :=
  joinOutputColumns
    (onNames.map (fun n => QCol.mk n leftTbl))
    (selfNames.map (fun n => QCol.mk n leftTbl))
    (otherNames.map (fun n => QCol.mk n rightTbl))

/-- Splitting lemma for the dict-overwrite lookup: in a concatenation, the
winning (last) entry for a key comes from the second list when it has the key,
otherwise from the first. -/
lemma lookupLast_append (a b : List QCol) (n : String) :
    lookupLast (a ++ b) n =
      match lookupLast b n with
      | some c => some c
      | none => lookupLast a n := by
  unfold lookupLast
  rw [List.filter_append, List.getLast?_append]
  cases h : (b.filter (fun c => c.name = n)).getLast? <;> simp [Option.or, h]

/-- The code's fold-style mapping agrees with the category-first description
for every name: join columns win, then left (self) columns, then right
(other) columns. -/
lemma joinOutput_eq_spec (j s o : List QCol) :
    joinOutputColumns j s o = joinOutputColumnsSpec j s o := by
  unfold joinOutputColumns joinOutputColumnsSpec
  refine List.filterMap_congr (fun n _ => ?_)
  rw [show o ++ s ++ j = o ++ (s ++ j) from (List.append_assoc o s j),
      lookupLast_append, lookupLast_append]
  cases lookupLast j n <;> cases lookupLast s n <;> simp

end JoinColumns

section HintResolution

/-- `get_tables_from_expression_with_join`. Modelled from the spec: the
helper lives in `dataframe/sql/util.py`, outside the translated file; per the
spec it lists "the tables actually joined in the current query", i.e. nothing
when the query has no joins, otherwise the `FROM` relation followed by the
joined relations. -/
def getTablesFromExpressionWithJoin (e : SelectExpr) : List String :=
  if e.joins.isEmpty then []
  else (match e.fromTbl with | some t => [t] | none => []) ++ e.joins

/-- Expansion of a join-hint target through the session's alias registry:
the alias's recorded sequence ids when the target is a known alias,
otherwise the target itself treated as a literal sequence id. -/
def candidateSeqIds (sess : Session) (t : String) : List String :=
  (sess.lookupAlias t).getD [t]

/-- Lines 149–153 for one hint target: scan the CTE list in reverse for CTEs
whose recorded sequence id is in the candidate set, and accept the first
whose name is among the joined tables; the accepted CTE's concrete name
replaces the target. -/
def resolveTargetToCteName (sess : Session)
    (ctes : List (String × String × String × SelectExpr)) (jts : List String)
    (t : String) : Option String :=
  ((ctes.reverse.filter (fun c => c.2.2.1 ∈ candidateSeqIds sess t)).find?
      (fun c => c.1 ∈ jts)).map (fun c => c.1)

/-- The per-target loop of lines 144–155 over one join hint's target list:
each matched target is rewritten to the matching CTE's name and triggers
`pending_hints.remove(hint)`; a second match within the same hint makes that
`remove` raise `ValueError` because the hint was already removed. Returns the
rewritten target list and how many removals happened. -/
def processTargets (sess : Session)
    (ctes : List (String × String × String × SelectExpr)) (jts : List String) :
    List String → Nat → Except String (List String × Nat)
  | [], removed => .ok ([], removed)
  | t :: ts, removed =>
    match resolveTargetToCteName sess ctes jts t with
    | some c =>
        if removed ≥ 1 then
          .error "ValueError: list.remove(x): x not in list"
        else do
          let (ts2, r) ← processTargets sess ctes jts ts 1
          .ok (c :: ts2, r)
    | none => do
        let (ts2, r) ← processTargets sess ctes jts ts removed
        .ok (t :: ts2, r)

/-- The join-hint loop of lines 143–156: every join hint is appended to the
hint clause (rewritten when a target matched), and only matched hints are
removed from the pending list. Returns (attached hints, surviving pending
hints). -/
def processJoinHints (sess : Session)
    (ctes : List (String × String × String × SelectExpr)) (jts : List String) :
    List PendingHint → Except String (List PendingHint × List PendingHint)
  | [] => .ok ([], [])
  | .partitionHint _ :: hs => processJoinHints sess ctes jts hs
  | .joinHint st ts :: hs => do
      let (ts2, removed) ← processTargets sess ctes jts ts 0
      let (att, pend) ← processJoinHints sess ctes jts hs
      .ok (.joinHint st ts2 :: att,
           if removed ≥ 1 then pend else .joinHint st ts :: pend)

/-- `DataFrame._resolve_pending_hints` (lines 131–159): no-op without pending
hints; partition hints are always attached and removed from pending; when the
query joins tables, every pending join hint is appended to the hint clause,
matched hints having their target rewritten to the CTE's concrete name and
being removed from pending. -/
def resolvePendingHints (sess : Session) (p : Plan) : Except String Plan :=
  if p.pendingHints.isEmpty then .ok p
  else
    let parts := p.pendingHints.filter PendingHint.isPartitionHint
    let pending1 := p.pendingHints.filter (fun h => !h.isPartitionHint)
    let base := p.expression.hints ++ parts
    let jts := getTablesFromExpressionWithJoin p.expression
    if jts.isEmpty then
      .ok { p with pendingHints := pending1, expression := p.expression.withHints base }
    else
      match processJoinHints sess p.expression.ctes jts pending1 with
      | .error e => .error e
      | .ok (att, pend) =>
          .ok { p with
                  pendingHints := pend,
                  expression := p.expression.withHints (base ++ att) }

/-- The attached hint clause of a resolution result ([] on an exception). -/
def exceptHints (r : Except String Plan) : List PendingHint :=
  match r with
  | .ok q => q.expression.hints
  | .error _ => []

/-- The surviving pending hints of a resolution result ([] on an exception). -/
def exceptPending (r : Except String Plan) : List PendingHint :=
  match r with
  | .ok q => q.pendingHints
  | .error _ => []

/-- A single-target join hint after resolution: target rewritten to the
matching CTE's concrete name when one exists, unchanged otherwise. -/
def rewriteSingleTargetHint (sess : Session)
    (ctes : List (String × String × String × SelectExpr)) (jts : List String)
    (h : PendingHint) : PendingHint :=
  match h with
  | .joinHint st [t] =>
      match resolveTargetToCteName sess ctes jts t with
      | some c => .joinHint st [c]
      | none => h
  | _ => h

/-- Whether a single-target join hint finds a matching joined CTE. -/
def singleTargetMatches (sess : Session)
    (ctes : List (String × String × String × SelectExpr)) (jts : List String)
    (h : PendingHint) : Bool :=
  match h with
  | .joinHint _ [t] => (resolveTargetToCteName sess ctes jts t).isSome
  | _ => false

/-- One single-target hint processes to: rewritten-and-removed on a match,
unchanged-and-kept otherwise. -/
lemma processTargets_single (sess : Session)
    (ctes : List (String × String × String × SelectExpr)) (jts : List String)
    (t : String) :
    processTargets sess ctes jts [t] 0 =
      match resolveTargetToCteName sess ctes jts t with
      | some c => .ok ([c], 1)
      | none => .ok ([t], 0) := by
  cases h : resolveTargetToCteName sess ctes jts t <;>
    simp only [processTargets, h] <;> rfl

/-- The join-hint loop on a pending list of single-target join hints attaches
every hint (rewritten where matched) and keeps exactly the unmatched ones
pending. -/
lemma processJoinHints_single (sess : Session)
    (ctes : List (String × String × String × SelectExpr)) (jts : List String)
    (hs : List PendingHint)
    (hshape : ∀ h ∈ hs, ∃ st t, h = PendingHint.joinHint st [t]) :
    processJoinHints sess ctes jts hs =
      .ok (hs.map (rewriteSingleTargetHint sess ctes jts),
           hs.filter (fun h => !(singleTargetMatches sess ctes jts h))) := by
  induction hs with
  | nil => rfl
  | cons h hs ih =>
    obtain ⟨st, t, rfl⟩ := hshape h (List.mem_cons_self h hs)
    have ih2 := ih (fun g hg => hshape g (List.mem_cons_of_mem _ hg))
    cases hr : resolveTargetToCteName sess ctes jts t with
    | some c =>
        simp only [processJoinHints, processTargets_single, hr, ih2,
                   rewriteSingleTargetHint, singleTargetMatches]
        show Except.ok _ = _
        simp [hr, singleTargetMatches, rewriteSingleTargetHint]
    | none =>
        simp only [processJoinHints, processTargets_single, hr, ih2,
                   rewriteSingleTargetHint, singleTargetMatches]
        show Except.ok _ = _
        simp [hr, singleTargetMatches, rewriteSingleTargetHint]

end HintResolution

/-- C2 (amended): when the current query joins tables, hint resolution appends
**every** pending single-target join hint to the AST's hint clause — a hint
whose target matches a CTE (recorded sequence-id in the candidate set, name
among the joined tables, most recently materialized first) is attached with
its target rewritten to that CTE's concrete name and is removed from the
pending list, while a hint matching no joined CTE is attached **unrewritten**
(not dropped) and also stays pending; no error is raised either way. -/
theorem C2_hint_resolution_amended (sess : Session) (p : Plan)
    (hshape : ∀ h ∈ p.pendingHints, ∃ st t, h = PendingHint.joinHint st [t]) :
    getTablesFromExpressionWithJoin p.expression ≠ [] →
    (resolvePendingHints sess p).isOk = true ∧
    exceptHints (resolvePendingHints sess p) =
      p.expression.hints ++
        p.pendingHints.map
          (rewriteSingleTargetHint sess p.expression.ctes
            (getTablesFromExpressionWithJoin p.expression)) ∧
    exceptPending (resolvePendingHints sess p) =
      p.pendingHints.filter
        (fun h => !(singleTargetMatches sess p.expression.ctes
          (getTablesFromExpressionWithJoin p.expression) h)) := by
  intro hjoin
  have hparts : p.pendingHints.filter PendingHint.isPartitionHint = [] := by
    rw [List.filter_eq_nil_iff]
    intro h hm
    obtain ⟨st, t, rfl⟩ := hshape h hm
    simp [PendingHint.isPartitionHint]
  have hpend1 : p.pendingHints.filter (fun h => !h.isPartitionHint) = p.pendingHints := by
    rw [List.filter_eq_self]
    intro h hm
    obtain ⟨st, t, rfl⟩ := hshape h hm
    simp [PendingHint.isPartitionHint]
  by_cases hemp : p.pendingHints.isEmpty
  · have hnil : p.pendingHints = [] := List.isEmpty_iff.mp hemp
    simp [resolvePendingHints, hemp, hnil, exceptHints, exceptPending, Except.isOk, Except.toBool]
  · have hjts : (getTablesFromExpressionWithJoin p.expression).isEmpty = false := by
      cases hx : getTablesFromExpressionWithJoin p.expression with
      | nil => exact absurd hx hjoin
      | cons a l => rfl
    rw [resolvePendingHints]
    simp only [hemp, Bool.false_eq_true, if_false, hparts, hpend1, hjts,
               List.append_nil]
    rw [processJoinHints_single sess p.expression.ctes
          (getTablesFromExpressionWithJoin p.expression) p.pendingHints hshape]
    simp [exceptHints, exceptPending, Except.isOk, Except.toBool]

/-- C2, witness: a concrete plan joining cte1 to cte2 with one pending
broadcast hint targeting sequence id s1 (recorded on cte2): resolution
succeeds, attaches the hint rewritten to cte2, and empties the pending
list. -/
theorem C2_hint_resolution_amended_witness :
    (∀ h ∈ ([PendingHint.joinHint "BROADCAST" ["s1"]] : List PendingHint),
        ∃ st t, h = PendingHint.joinHint st [t]) ∧
    ((resolvePendingHints (Session.mk 0 [])
        (Plan.mk
          (SelectExpr.mk [ProjItem.col none "a"] (some "cte1") ["cte2"] []
            [("cte1", "b0", "s0", emptySelect), ("cte2", "b1", "s1", emptySelect)] [])
          "b0" "s9" [PendingHint.joinHint "BROADCAST" ["s1"]])).isOk = true ∧
      exceptHints (resolvePendingHints (Session.mk 0 [])
        (Plan.mk
          (SelectExpr.mk [ProjItem.col none "a"] (some "cte1") ["cte2"] []
            [("cte1", "b0", "s0", emptySelect), ("cte2", "b1", "s1", emptySelect)] [])
          "b0" "s9" [PendingHint.joinHint "BROADCAST" ["s1"]])) =
        (SelectExpr.mk [ProjItem.col none "a"] (some "cte1") ["cte2"] []
            [("cte1", "b0", "s0", emptySelect), ("cte2", "b1", "s1", emptySelect)] []).hints ++
          [PendingHint.joinHint "BROADCAST" ["s1"]].map
            (rewriteSingleTargetHint (Session.mk 0 [])
              (SelectExpr.mk [ProjItem.col none "a"] (some "cte1") ["cte2"] []
                [("cte1", "b0", "s0", emptySelect), ("cte2", "b1", "s1", emptySelect)] []).ctes
              (getTablesFromExpressionWithJoin
                (SelectExpr.mk [ProjItem.col none "a"] (some "cte1") ["cte2"] []
                  [("cte1", "b0", "s0", emptySelect), ("cte2", "b1", "s1", emptySelect)] []))) ∧
      exceptPending (resolvePendingHints (Session.mk 0 [])
        (Plan.mk
          (SelectExpr.mk [ProjItem.col none "a"] (some "cte1") ["cte2"] []
            [("cte1", "b0", "s0", emptySelect), ("cte2", "b1", "s1", emptySelect)] [])
          "b0" "s9" [PendingHint.joinHint "BROADCAST" ["s1"]])) =
        [PendingHint.joinHint "BROADCAST" ["s1"]].filter
          (fun h => !(singleTargetMatches (Session.mk 0 [])
            (SelectExpr.mk [ProjItem.col none "a"] (some "cte1") ["cte2"] []
              [("cte1", "b0", "s0", emptySelect), ("cte2", "b1", "s1", emptySelect)] []).ctes
            (getTablesFromExpressionWithJoin
              (SelectExpr.mk [ProjItem.col none "a"] (some "cte1") ["cte2"] []
                [("cte1", "b0", "s0", emptySelect), ("cte2", "b1", "s1", emptySelect)] [])) h))) :=
  ⟨fun h hm => by
      simp only [List.mem_singleton] at hm
      exact ⟨"BROADCAST", "s1", hm⟩,
   C2_hint_resolution_amended (Session.mk 0 [])
     (Plan.mk
       (SelectExpr.mk [ProjItem.col none "a"] (some "cte1") ["cte2"] []
         [("cte1", "b0", "s0", emptySelect), ("cte2", "b1", "s1", emptySelect)] [])
       "b0" "s9" [PendingHint.joinHint "BROADCAST" ["s1"]])
     (fun h hm => by
       simp only [List.mem_singleton] at hm
       exact ⟨"BROADCAST", "s1", hm⟩)
     (by decide)⟩

/-- C2, counterexample: a join hint whose target "zzz" matches no CTE and no
joined table is **attached to the AST hint clause anyway** (and also stays
pending), with no error — the claim said such a hint is not attached to the
AST. -/
theorem C2_hint_resolution_counterexample :
    exceptHints (resolvePendingHints (Session.mk 0 [])
      (Plan.mk
        (SelectExpr.mk [ProjItem.col none "a"] (some "cte1") ["cte2"] []
          [("cte1", "b0", "s0", emptySelect), ("cte2", "b1", "s1", emptySelect)] [])
        "b0" "s9" [PendingHint.joinHint "BROADCAST" ["zzz"]])) =
      [PendingHint.joinHint "BROADCAST" ["zzz"]] ∧
    exceptPending (resolvePendingHints (Session.mk 0 [])
      (Plan.mk
        (SelectExpr.mk [ProjItem.col none "a"] (some "cte1") ["cte2"] []
          [("cte1", "b0", "s0", emptySelect), ("cte2", "b1", "s1", emptySelect)] [])
        "b0" "s9" [PendingHint.joinHint "BROADCAST" ["zzz"]])) =
      [PendingHint.joinHint "BROADCAST" ["zzz"]] ∧
    (resolvePendingHints (Session.mk 0 [])
      (Plan.mk
        (SelectExpr.mk [ProjItem.col none "a"] (some "cte1") ["cte2"] []
          [("cte1", "b0", "s0", emptySelect), ("cte2", "b1", "s1", emptySelect)] [])
        "b0" "s9" [PendingHint.joinHint "BROADCAST" ["zzz"]])).isOk = true := by
  refine ⟨by decide, by decide, by decide⟩

/-- C1: the output projection of a join is the first-seen-order union of the
resolved join columns, the left plan's output columns and the right plan's
output columns, but a name occurring in more than one category resolves with
join-column occurrences taking precedence over **left-side** occurrences,
which take precedence over **right-side** occurrences (the claim stated the
two side precedences the other way around); joining P1 with columns [a,b] to
P2 with columns [b,c] on "b" yields exactly the columns [b,a,c] with "b"
appearing once, qualified to the left relation. -/
theorem C1_join_projection_amended :
    (∀ j s o : List QCol, joinOutputColumns j s o = joinOutputColumnsSpec j s o) ∧
    joinProjection ["b"] "t1" "t2" ["a", "b"] ["b", "c"] =
      [QCol.mk "b" "t1", QCol.mk "a" "t1", QCol.mk "c" "t2"] := by
  exact ⟨joinOutput_eq_spec, by decide⟩

/-- C1, counterexample to the stated precedence: joining two plans that both
output columns [k, d] on the shared name "k" resolves the duplicated
non-join name "d" to the **left** relation t1, whereas the claim's
join > right > left precedence would resolve it to the right relation t2. -/
theorem C1_join_projection_counterexample :
    joinProjection ["k"] "t1" "t2" ["k", "d"] ["k", "d"] =
      [QCol.mk "k" "t1", QCol.mk "d" "t1"] ∧
    joinOutputColumnsClaim
        [QCol.mk "k" "t1"]
        [QCol.mk "k" "t1", QCol.mk "d" "t1"]
        [QCol.mk "k" "t2", QCol.mk "d" "t2"] =
      [QCol.mk "k" "t1", QCol.mk "d" "t2"] ∧
    joinProjection ["k"] "t1" "t2" ["k", "d"] ["k", "d"] ≠
      joinOutputColumnsClaim
        [QCol.mk "k" "t1"]
        [QCol.mk "k" "t1", QCol.mk "d" "t1"]
        [QCol.mk "k" "t2", QCol.mk "d" "t2"] := by
  refine ⟨by decide, by decide, by decide⟩

section Rendering

/-- Spark-dialect text of a scalar expression. Modelled from the spec: the
text renderer belongs to the external expression abstraction ("text rendering
for a named SQL dialect"); the hashing claims depend only on the rendered
text being a deterministic function of the tree. -/
def renderBody : PBody → String
  | .colRef t n => (match t with | some tb => tb ++ "." | none => "") ++ n
  | .lit n => toString n
  | .nullLit => "NULL"
  | .caseNull s a b =>
      "CASE WHEN " ++ renderBody s ++ " IS NULL THEN " ++ renderBody a ++
        " ELSE " ++ renderBody b ++ " END"
  | .add a b => renderBody a ++ " + " ++ renderBody b
  | .lt a b => renderBody a ++ " < " ++ renderBody b
  | .eqB a b => renderBody a ++ " = " ++ renderBody b
  | .andB a b => renderBody a ++ " AND " ++ renderBody b

def renderProj : ProjItem → String
  | .star none => "*"
  | .star (some a) => "* AS " ++ a
  | .col t n => (match t with | some tb => tb ++ "." | none => "") ++ n
  | .aliased b a => renderBody b ++ " AS " ++ a

def renderHint : PendingHint → String
  | .joinHint st ts => st ++ "(" ++ String.intercalate ", " ts ++ ")"
  | .partitionHint n => n

/-- Spark-dialect text of a `SELECT` (with its `WITH` clause). -/
def renderSelect : SelectExpr → String
  | .mk projs fromTbl joins whereCls ctes hints =>
    let cteTxt :=
      if ctes.isEmpty then ""
      else "WITH " ++ String.intercalate ", "
          (ctes.attach.map (fun c => c.1.1 ++ " AS (" ++ renderSelect c.1.2.2.2 ++ ")")) ++ " "
    let hintTxt :=
      if hints.isEmpty then ""
      else "/*+ " ++ String.intercalate ", " (hints.map renderHint) ++ " */ "
    let fromTxt := match fromTbl with | some t => " FROM " ++ t | none => ""
    let joinTxt := String.join (joins.map (fun j => " JOIN " ++ j))
    let whereTxt :=
      if whereCls.isEmpty then ""
      else " WHERE " ++ String.intercalate " AND " (whereCls.map renderBody)
    cteTxt ++ "SELECT " ++ hintTxt ++ String.intercalate ", " (projs.map renderProj) ++
      fromTxt ++ joinTxt ++ whereTxt
decreasing_by
  obtain ⟨⟨a1, b1, c1, body⟩, pf⟩ := c
  have h1 := List.sizeOf_lt_of_mem pf
  simp at h1 ⊢
  omega

/-- zlib's CRC-32: one bit step of the reflected polynomial 0xEDB88320. -/
def crc32Step (c : Nat) : Nat :=
  if c % 2 = 1 then (c / 2) ^^^ 0xEDB88320 else c / 2

/-- zlib's CRC-32: fold one byte into the running value. -/
def crc32Byte (crc b : Nat) : Nat :=
  crc32Step^[8] (crc ^^^ b)

/-- `zlib.crc32` over a byte list (initial and final xor 0xFFFFFFFF). -/
def crc32 (bs : List Nat) : Nat :=
  (bs.foldl crc32Byte 0xFFFFFFFF) ^^^ 0xFFFFFFFF

/-- The UTF-8 bytes of a string (`.encode("utf-8")`). -/
def stringBytes (s : String) : List Nat :=
  s.toUTF8.toList.map (fun b => b.toNat)

/-- `DataFrame._create_hash_from_expression`: the synthesized CTE name
`f"t..."[:6]` — "t" followed by the decimal CRC-32 of the canonical
(spark-dialect) text of the expression, truncated to six characters. -/
def createHashFromExpression (e : SelectExpr) : String :=
  ("t" ++ toString (crc32 (stringBytes (renderSelect e)))).take 6

/-- The CTE names synthesized by `_replace_cte_names_with_hashes`, in CTE
order: each CTE's new name is the hash of its body as it stood when the
loop reached it. -/
def assignedCteNames (e : SelectExpr) : List String :=
  e.ctes.map (fun c => createHashFromExpression c.2.2.2)

def renameStr (old new s : String) : String := if s = old then new else s

/-- `node.replace(new_hashed_id)` applied to every identifier with
`alias_or_name` equal to the old name, inside scalar expressions. -/
def renameIdentB (old new : String) : PBody → PBody
  | .colRef t n => .colRef (t.map (renameStr old new)) (renameStr old new n)
  | .lit n => .lit n
  | .nullLit => .nullLit
  | .caseNull s a b =>
      .caseNull (renameIdentB old new s) (renameIdentB old new a) (renameIdentB old new b)
  | .add a b => .add (renameIdentB old new a) (renameIdentB old new b)
  | .lt a b => .lt (renameIdentB old new a) (renameIdentB old new b)
  | .eqB a b => .eqB (renameIdentB old new a) (renameIdentB old new b)
  | .andB a b => .andB (renameIdentB old new a) (renameIdentB old new b)

def renameIdentP (old new : String) : ProjItem → ProjItem
  | .star al => .star (al.map (renameStr old new))
  | .col t n => .col (t.map (renameStr old new)) (renameStr old new n)
  | .aliased b a => .aliased (renameIdentB old new b) (renameStr old new a)

def renameIdentH (old new : String) : PendingHint → PendingHint
  | .joinHint st ts => .joinHint st (ts.map (renameStr old new))
  | .partitionHint n => .partitionHint n

/-- `expression.transform(_replace_old_id_with_new)`: rename every identifier
equal to the old name, throughout the tree (table references, CTE aliases,
column parts, hint targets). -/
def renameIdent (old new : String) : SelectExpr → SelectExpr
  | .mk projs fromTbl joins whereCls ctes hints =>
    .mk (projs.map (renameIdentP old new)) (fromTbl.map (renameStr old new))
        (joins.map (renameStr old new)) (whereCls.map (renameIdentB old new))
        (ctes.attach.map (fun c =>
          (renameStr old new c.1.1, c.1.2.1, c.1.2.2.1, renameIdent old new c.1.2.2.2)))
        (hints.map (renameIdentH old new))
decreasing_by
  obtain ⟨⟨a1, b1, c1, body⟩, pf⟩ := c
  have h1 := List.sizeOf_lt_of_mem pf
  simp at h1 ⊢
  omega

/-- `DataFrame._replace_cte_names_with_hashes` (lines 77–90): compute each
CTE's hashed name from its body and rewrite every reference, one atomic
whole-tree rename per CTE in order. -/
def replaceCteNamesWithHashes (e : SelectExpr) : SelectExpr :=
  ((e.ctes.map (fun c => (c.1, createHashFromExpression c.2.2.2)))).foldl
    (fun acc pr => renameIdent pr.1 pr.2 acc) e

/-- `DataFrame.sql` (lines 226–239) as a state-passing call: resolve pending
hints on a copy, optionally run the (external, pure) optimizer, replace CTE
names with hashes, render — and return the text next to the object the call
was made on, which the method never mutates. The optimizer is a parameter
(`optimize_func` is an external collaborator the spec calls a pure
function). -/
def sqlCall (optimizeF : SelectExpr → SelectExpr) (useOpt : Bool) (sess : Session)
    (p : Plan) : (Except String String) × Plan :=
  let text :=
    match resolvePendingHints sess p with
    | .error e => .error e
    | .ok df =>
        let expr := df.expression
        let expr2 := if useOpt then optimizeF expr else expr
        .ok (renderSelect (replaceCteNamesWithHashes expr2))
  (text, p)

end Rendering

/-- The pairing of each CTE with its synthesized name is the graph of the
hash-of-body function. -/
lemma zip_assignedCteNames (e : SelectExpr) :
    e.ctes.zip (assignedCteNames e) =
      e.ctes.map (fun c => (c, createHashFromExpression c.2.2.2)) := by
  unfold assignedCteNames
  calc e.ctes.zip (e.ctes.map (fun c => createHashFromExpression c.2.2.2))
      = (e.ctes.map id).zip (e.ctes.map (fun c => createHashFromExpression c.2.2.2)) := by
        rw [List.map_id]
    _ = e.ctes.map (fun c => (c, createHashFromExpression c.2.2.2)) := by
        rw [List.zip_map']
        simp

/-- C3: rendering is idempotent and mutation-free — `sql` returns the plan it
was called on unchanged (the method works on resolve-and-copy private state),
so calling it twice in succession with the same arguments produces identical
text. -/
theorem C3_sql_idempotent_and_pure (optimizeF : SelectExpr → SelectExpr)
    (useOpt : Bool) (sess : Session) (p : Plan) :
    (sqlCall optimizeF useOpt sess p).2 = p ∧
    (sqlCall optimizeF useOpt sess ((sqlCall optimizeF useOpt sess p).2)).1 =
      (sqlCall optimizeF useOpt sess p).1 ∧
    ((sqlCall optimizeF useOpt sess p).2).pendingHints = p.pendingHints ∧
    ((sqlCall optimizeF useOpt sess p).2).expression = p.expression :=
  ⟨rfl, rfl, rfl, rfl⟩

/-- C4: the finalized CTE name is a deterministic function of the canonical
text of the CTE's defining sub-query — any two CTEs (in any two plans) whose
bodies render to identical spark-dialect text are assigned identical
synthesized names by `_replace_cte_names_with_hashes`. -/
theorem C4_deterministic_cte_hashing (e1 e2 : SelectExpr)
    (p1 p2 : (String × String × String × SelectExpr) × String)
    (h1 : p1 ∈ e1.ctes.zip (assignedCteNames e1))
    (h2 : p2 ∈ e2.ctes.zip (assignedCteNames e2))
    (hr : renderSelect p1.1.2.2.2 = renderSelect p2.1.2.2.2) :
    p1.2 = p2.2 := by
  rw [zip_assignedCteNames] at h1 h2
  obtain ⟨c1, hc1, rfl⟩ := List.mem_map.mp h1
  obtain ⟨c2, hc2, rfl⟩ := List.mem_map.mp h2
  simp only [createHashFromExpression]
  simp only at hr
  rw [hr]

/-- C4, witness: a plan whose two CTEs r0 and r1 have identical (empty select)
bodies: both are assigned the same synthesized name. -/
theorem C4_deterministic_cte_hashing_witness :
    (("r0", "b0", "s0", emptySelect), createHashFromExpression emptySelect) ∈
      (SelectExpr.mk [ProjItem.star none] (some "r1") [] []
        [("r0", "b0", "s0", emptySelect), ("r1", "b1", "s1", emptySelect)] []).ctes.zip
        (assignedCteNames (SelectExpr.mk [ProjItem.star none] (some "r1") [] []
          [("r0", "b0", "s0", emptySelect), ("r1", "b1", "s1", emptySelect)] [])) ∧
    (("r1", "b1", "s1", emptySelect), createHashFromExpression emptySelect) ∈
      (SelectExpr.mk [ProjItem.star none] (some "r1") [] []
        [("r0", "b0", "s0", emptySelect), ("r1", "b1", "s1", emptySelect)] []).ctes.zip
        (assignedCteNames (SelectExpr.mk [ProjItem.star none] (some "r1") [] []
          [("r0", "b0", "s0", emptySelect), ("r1", "b1", "s1", emptySelect)] [])) ∧
    ((("r0", "b0", "s0", emptySelect), createHashFromExpression emptySelect) :
        (String × String × String × SelectExpr) × String).2 =
      ((("r1", "b1", "s1", emptySelect), createHashFromExpression emptySelect) :
        (String × String × String × SelectExpr) × String).2 := by
  refine ⟨?_, ?_, ?_⟩
  · exact List.mem_cons_self _ _
  · exact List.mem_cons_of_mem _ (List.mem_cons_self _ _)
  · exact C4_deterministic_cte_hashing
      (SelectExpr.mk [ProjItem.star none] (some "r1") [] []
        [("r0", "b0", "s0", emptySelect), ("r1", "b1", "s1", emptySelect)] [])
      (SelectExpr.mk [ProjItem.star none] (some "r1") [] []
        [("r0", "b0", "s0", emptySelect), ("r1", "b1", "s1", emptySelect)] [])
      (("r0", "b0", "s0", emptySelect), createHashFromExpression emptySelect)
      (("r1", "b1", "s1", emptySelect), createHashFromExpression emptySelect)
      (List.mem_cons_self _ _)
      (List.mem_cons_of_mem _ (List.mem_cons_self _ _))
      rfl

section Materializer

/-- `Column.expression.this is exp.Star`: whether a projection item projects a
star (an aliased star is still an alias over a star node). -/
def ProjItem.isStarItem : ProjItem → Bool
  | .star _ => true
  | _ => false

/-- Parsing of one projected name string in `select(*names)`: "*" parses back
to a star node, anything else to a bare column reference. -/
def parseProj (s : String) : ProjItem :=
  if s = "*" then .star none else .col none s

@[simp] lemma aliasOrName_parseProj (s : String) : (parseProj s).aliasOrName = s := by
  unfold parseProj
  by_cases h : s = "*" <;> simp [h, ProjItem.aliasOrName]

/-- `DataFrame._add_ctes_to_expression`: append the given CTEs to the
expression's WITH clause, skipping any whose name already appears there (the
existing-name list is computed once, before appending). -/
def addCtesToExpression (e : SelectExpr)
    (ctes : List (String × String × String × SelectExpr)) : SelectExpr :=
  if e.ctes.isEmpty then e.withCtes ctes
  else e.withCtes (e.ctes ++ ctes.filter (fun c => c.1 ∉ e.ctes.map (fun x => x.1)))

/-- The expression part of `DataFrame._convert_leaf_to_cte` (lines 120–128):
wrap the current expression, stripped of its WITH clause, as a CTE named
`name` carrying the lineage ids, hoist the old CTE list plus the new CTE into
a fresh outer `SELECT <names> FROM name`, collapsing the projection to a
single star when the old projection contained one. -/
def materializeExpr (name branchId seqId : String) (e : SelectExpr) : SelectExpr :=
  let cte := (name, branchId, seqId, e.withCtes [])
  let newE1 := addCtesToExpression emptySelect (e.ctes ++ [cte])
  let selCols := firstDedup (e.withCtes ([] : List (String × String × String × SelectExpr))).projs
  let starCols := selCols.filter ProjItem.isStarItem
  let selCols2 := if starCols.isEmpty then selCols else starCols.take 1
  (newE1.withFrom (some name)).withProjs (selCols2.map (fun c => parseProj c.aliasOrName))

/-- `DataFrame._convert_leaf_to_cte`: resolve pending hints first, then
materialize the (copied) expression under a fresh random name, keeping the
branch id and adopting the requested (or current) sequence id. -/
def convertLeafToCte (sess : Session) (p : Plan) (seqArg : Option String) :
    Except String (Session × Plan) :=
  match resolvePendingHints sess p with
  | .error e => .error e
  | .ok df =>
      let seq := seqArg.getD df.sequenceId
      let pr := sess.freshName
      .ok (pr.2, { df with
                     expression := materializeExpr pr.1 df.branchId seq df.expression,
                     sequenceId := seq })

/-- Materializing twice in a row, threading the session. -/
def convertTwice (sess : Session) (p : Plan) : Except String (Session × Plan) :=
  match convertLeafToCte sess p none with
  | .error e => .error e
  | .ok (s2, q) => convertLeafToCte s2 q none

/-- The output column names of a materialization result ([] on an
exception). -/
def materializedColumns (r : Except String (Session × Plan)) : List String :=
  match r with
  | .ok (_, q) => q.expression.namedSelects
  | .error _ => []

lemma firstDedup_foldl_mem {α : Type} [DecidableEq α] :
    ∀ (l acc : List α) (x : α),
      x ∈ l.foldl (fun acc y => if y ∈ acc then acc else acc ++ [y]) acc →
      x ∈ acc ∨ x ∈ l
  | [], _, _, h => Or.inl h
  | a :: l, acc, x, h => by
      rw [List.foldl_cons] at h
      rcases firstDedup_foldl_mem l _ x h with h2 | h2
      · by_cases ha : a ∈ acc
        · rw [if_pos ha] at h2
          exact Or.inl h2
        · rw [if_neg ha] at h2
          rcases List.mem_append.mp h2 with h3 | h3
          · exact Or.inl h3
          · simp only [List.mem_singleton] at h3
            exact Or.inr (h3 ▸ List.mem_cons_self a l)
      · exact Or.inr (List.mem_cons_of_mem a h2)

lemma mem_firstDedup {α : Type} [DecidableEq α] {l : List α} {x : α}
    (h : x ∈ firstDedup l) : x ∈ l := by
  rcases firstDedup_foldl_mem l [] x h with h2 | h2
  · exact absurd h2 (List.not_mem_nil x)
  · exact h2

lemma firstDedup_foldl_nodup {α : Type} [DecidableEq α] :
    ∀ (l acc : List α), l.Nodup → (∀ x ∈ l, x ∉ acc) →
      l.foldl (fun acc y => if y ∈ acc then acc else acc ++ [y]) acc = acc ++ l
  | [], acc, _, _ => by simp
  | a :: l, acc, hnd, hacc => by
      have ha : a ∉ acc := hacc a (List.mem_cons_self a l)
      rw [List.foldl_cons, if_neg ha,
          firstDedup_foldl_nodup l (acc ++ [a]) (List.nodup_cons.mp hnd).2
            (fun x hx hc => by
              rcases List.mem_append.mp hc with h3 | h3
              · exact hacc x (List.mem_cons_of_mem a hx) h3
              · simp only [List.mem_singleton] at h3
                exact (List.nodup_cons.mp hnd).1 (h3 ▸ hx))]
      simp

lemma firstDedup_eq_self {α : Type} [DecidableEq α] {l : List α} (h : l.Nodup) :
    firstDedup l = l := by
  unfold firstDedup
  rw [firstDedup_foldl_nodup l [] h (by simp)]
  simp

end Materializer

section RowSemantics

/-- A row: named, possibly-NULL integer cells in column order. -/
abbrev Row := List (String × Option Int)

/-- A table value: a list of rows. -/
abbrev Table := List Row

/-- The value of the first cell named `n` (NULL when absent). -/
def lookupCell (r : Row) (n : String) : Option Int :=
  match r.find? (fun c => c.1 = n) with
  | some c => c.2
  | none => none

/-- Evaluate the projection `SELECT names` on one row of the underlying
relation: a star copies the whole row, a name picks its cell. -/
def projectRow (names : List String) (r : Row) : Row :=
  List.flatten (names.map (fun n => if n = "*" then r else [(n, lookupCell r n)]))

/-- Evaluate the projection `SELECT names FROM t` on a table. -/
def projectTable (names : List String) (t : Table) : Table :=
  t.map (projectRow names)

lemma projectRow_star_free (names : List String) (r : Row) (h : "*" ∉ names) :
    projectRow names r = names.map (fun n => (n, lookupCell r n)) := by
  unfold projectRow
  induction names with
  | nil => rfl
  | cons a l ih =>
    have ha : ¬(a = "*") := fun hc => h (hc ▸ List.mem_cons_self a l)
    simp only [List.map_cons, List.flatten_cons, ha, if_false,
               ih (fun hc => h (List.mem_cons_of_mem a hc))]
    rfl

lemma lookupCell_map (r : Row) :
    ∀ (l : List String) (n : String), n ∈ l →
      lookupCell (l.map (fun m => (m, lookupCell r m))) n = lookupCell r n
  | a :: l, n, hn => by
      by_cases hna : n = a
      · subst hna
        unfold lookupCell
        rw [List.map_cons, List.find?_cons_of_pos _ (by simp)]
      · have hnl : n ∈ l := by
          rcases List.mem_cons.mp hn with h3 | h3
          · exact absurd h3 hna
          · exact h3
        have hrec := lookupCell_map r l n hnl
        unfold lookupCell at hrec ⊢
        rw [List.map_cons, List.find?_cons_of_neg _ (by simp; exact fun hc => hna hc.symm)]
        exact hrec

/-- Projecting the same star-free name list twice gives the same rows as
projecting it once. -/
lemma projectRow_idem (names : List String) (r : Row) (hstar : "*" ∉ names) :
    projectRow names (projectRow names r) = projectRow names r := by
  rw [projectRow_star_free names r hstar,
      projectRow_star_free names (names.map (fun n => (n, lookupCell r n))) hstar]
  refine List.map_congr_left (fun n hn => ?_)
  rw [lookupCell_map r names n hn]

lemma projectTable_idem (names : List String) (t : Table) (hstar : "*" ∉ names) :
    projectTable names (projectTable names t) = projectTable names t := by
  unfold projectTable
  rw [List.map_map]
  refine List.map_congr_left (fun r _ => ?_)
  exact projectRow_idem names r hstar

end RowSemantics

section MaterializeIdem

/-- The projection list the materializer's fresh outer select re-projects,
as a function of the old projection list: deduplicate structurally, collapse
to the first star when one is present, and re-parse each alias-or-name. -/
def matProjsL (projs : List ProjItem) : List ProjItem :=
  let selCols := firstDedup projs
  let starCols := selCols.filter ProjItem.isStarItem
  (if starCols.isEmpty then selCols else starCols.take 1).map
    (fun c => parseProj c.aliasOrName)

lemma materializeExpr_projsL (name br seq : String) (e : SelectExpr) :
    (materializeExpr name br seq e).projs = matProjsL e.projs := rfl

lemma materializeExpr_joins (name br seq : String) (e : SelectExpr) :
    (materializeExpr name br seq e).joins = [] := rfl

lemma matProjsL_def (projs : List ProjItem) :
    matProjsL projs =
      (if ((firstDedup projs).filter ProjItem.isStarItem).isEmpty then
         firstDedup projs
       else ((firstDedup projs).filter ProjItem.isStarItem).take 1).map
        (fun c => parseProj c.aliasOrName) := rfl

lemma parseProj_eq_star (s : String) (al : Option String)
    (h : parseProj s = ProjItem.star al) : s = "*" ∧ al = none := by
  unfold parseProj at h
  by_cases hs : s = "*"
  · rw [if_pos hs] at h
    cases h
    exact ⟨hs, rfl⟩
  · rw [if_neg hs] at h
    cases h

/-- Every item the materializer projects is the re-parse of its own output
name: re-projecting a materialized projection is pointwise the identity. -/
lemma matProjsL_mem_fix (projs : List ProjItem) :
    ∀ it ∈ matProjsL projs, parseProj it.aliasOrName = it := by
  intro it hit
  unfold matProjsL at hit
  rw [List.mem_map] at hit
  obtain ⟨c, _, rfl⟩ := hit
  rw [aliasOrName_parseProj]

/-- Re-projecting a materialized projection list whose output names are
pairwise distinct and mention the literal name "*" only as the lone wildcard
is the identity on projection lists — the crux of materialize-twice
idempotence. -/
lemma matProjsL_idem (projs : List ProjItem)
    (hnodup : ((matProjsL projs).map ProjItem.aliasOrName).Nodup)
    (hstar : "*" ∈ (matProjsL projs).map ProjItem.aliasOrName →
       (matProjsL projs).map ProjItem.aliasOrName = ["*"]) :
    matProjsL (matProjsL projs) = matProjsL projs := by
  have hnodupP : (matProjsL projs).Nodup := hnodup.of_map
  have hded : firstDedup (matProjsL projs) = matProjsL projs :=
    firstDedup_eq_self hnodupP
  by_cases hs : "*" ∈ (matProjsL projs).map ProjItem.aliasOrName
  · have hsing : (matProjsL projs).map ProjItem.aliasOrName = ["*"] := hstar hs
    have hlen : (matProjsL projs).length = 1 := by
      have := congrArg List.length hsing
      simpa using this
    obtain ⟨it, hit⟩ : ∃ it, matProjsL projs = [it] := by
      cases hP : matProjsL projs with
      | nil => rw [hP] at hlen; cases hlen
      | cons a l =>
          cases l with
          | nil => exact ⟨a, rfl⟩
          | cons b m => rw [hP] at hlen; simp at hlen
    have hname : it.aliasOrName = "*" := by
      rw [hit] at hsing
      simpa using hsing
    have hfi : parseProj it.aliasOrName = it :=
      matProjsL_mem_fix projs it (hit ▸ List.mem_cons_self it [])
    have hstar2 : it = ProjItem.star none := by
      rw [hname] at hfi
      rw [← hfi]
      rfl
    conv_lhs => rw [matProjsL_def]
    rw [hded, hit, hstar2]
    decide
  · have hnostars : (matProjsL projs).filter ProjItem.isStarItem = [] := by
      rw [List.filter_eq_nil_iff]
      intro it hit hstarIt
      cases it with
      | star al =>
          have hfi := matProjsL_mem_fix projs (ProjItem.star al) hit
          have hh := parseProj_eq_star _ al hfi
          exact hs (hh.1 ▸ List.mem_map_of_mem ProjItem.aliasOrName hit)
      | col t n => simp [ProjItem.isStarItem] at hstarIt
      | aliased b a => simp [ProjItem.isStarItem] at hstarIt
    conv_lhs => rw [matProjsL_def]
    rw [hded, hnostars]
    simp only [List.isEmpty_nil, if_true]
    have hcongr : (matProjsL projs).map (fun c => parseProj c.aliasOrName) =
        (matProjsL projs).map id :=
      List.map_congr_left (fun it hit => matProjsL_mem_fix projs it hit)
    rw [hcongr, List.map_id]

/-- Hint resolution never touches the projection list: every branch only
edits the hint clause and the pending list. -/
lemma resolvePendingHints_projs (sess : Session) (p q : Plan)
    (h : resolvePendingHints sess p = .ok q) :
    q.expression.projs = p.expression.projs := by
  unfold resolvePendingHints at h
  by_cases he : p.pendingHints.isEmpty
  · rw [if_pos he] at h
    cases h
    rfl
  · rw [if_neg he] at h
    by_cases hj : (getTablesFromExpressionWithJoin p.expression).isEmpty
    · rw [if_pos hj] at h
      cases h
      simp
    · rw [if_neg hj] at h
      cases hp : processJoinHints sess p.expression.ctes
          (getTablesFromExpressionWithJoin p.expression)
          (p.pendingHints.filter (fun x => !x.isPartitionHint)) with
      | error e =>
          rw [hp] at h
          cases h
      | ok pr =>
          rw [hp] at h
          cases h
          simp

/-- A successful materialization re-projects the old projection through
`matProjsL` and leaves the new outer query joinless. -/
lemma convertLeafToCte_ok_shape (sess : Session) (p : Plan) (sq : Option String)
    (s2 : Session) (q1 : Plan)
    (h : convertLeafToCte sess p sq = .ok (s2, q1)) :
    q1.expression.projs = matProjsL p.expression.projs ∧
    q1.expression.joins = [] := by
  unfold convertLeafToCte at h
  cases hr : resolvePendingHints sess p with
  | error e =>
      rw [hr] at h
      cases h
  | ok df =>
      rw [hr] at h
      cases h
      constructor
      · rw [materializeExpr_projsL, resolvePendingHints_projs sess p df hr]
      · exact materializeExpr_joins _ _ _ _

/-- On a joinless plan hint resolution always succeeds (the join-hint loop is
gated on joined tables) and keeps the projection. -/
lemma resolvePendingHints_noJoins (sess : Session) (q : Plan)
    (hj : q.expression.joins = []) :
    ∃ df, resolvePendingHints sess q = .ok df ∧
      df.expression.projs = q.expression.projs := by
  unfold resolvePendingHints
  by_cases he : q.pendingHints.isEmpty
  · rw [if_pos he]
    exact ⟨q, rfl, rfl⟩
  · have hjts : (getTablesFromExpressionWithJoin q.expression).isEmpty = true := by
      unfold getTablesFromExpressionWithJoin
      rw [hj]
      rfl
    rw [if_neg he, if_pos hjts]
    exact ⟨_, rfl, by simp⟩

/-- Materializing a joinless plan always succeeds and re-projects through
`matProjsL`. -/
lemma convertLeafToCte_noJoins_ok (sess : Session) (q : Plan)
    (hj : q.expression.joins = []) :
    ∃ s2 q2, convertLeafToCte sess q none = .ok (s2, q2) ∧
      q2.expression.projs = matProjsL q.expression.projs := by
  obtain ⟨df, hdf, hprojs⟩ := resolvePendingHints_noJoins sess q hj
  refine ⟨(sess.freshName).2,
          { df with
              expression :=
                materializeExpr (sess.freshName).1 df.branchId df.sequenceId
                  df.expression,
              sequenceId := df.sequenceId }, ?_, ?_⟩
  · unfold convertLeafToCte
    rw [hdf]
    rfl
  · show (materializeExpr (sess.freshName).1 df.branchId df.sequenceId
      df.expression).projs = _
    rw [materializeExpr_projsL, hprojs]

lemma projectRow_starOnly (r : Row) : projectRow ["*"] r = r := by
  simp [projectRow]

/-- Re-projecting a name list that is either star-free or the lone wildcard
is idempotent on tables. -/
lemma projectTable_idem_general (names : List String) (t : Table)
    (h : "*" ∈ names → names = ["*"]) :
    projectTable names (projectTable names t) = projectTable names t := by
  by_cases hs : "*" ∈ names
  · rw [h hs]
    unfold projectTable
    rw [List.map_map]
    refine List.map_congr_left (fun r _ => ?_)
    show projectRow ["*"] (projectRow ["*"] r) = projectRow ["*"] r
    rw [projectRow_starOnly (projectRow ["*"] r)]
  · exact projectTable_idem names t hs

end MaterializeIdem

/-- C6 (amended): for every plan — pending hints and wildcard projections
included — whose first materialization succeeds with an output column list
that is duplicate-free and mentions the literal name "*" only as the lone
wildcard, materializing twice in succession is idempotent on row/column
semantics: the second materialization always succeeds, the twice-materialized
plan has exactly the once-materialized output column list, and re-projecting
those columns is the identity on tables, so the rows agree and only the CTE
nesting depth grows. Both provisos are forced by the counterexample: a plan
projecting `a AS x, b AS x` loses a column on the second pass (the second
pass deduplicates the now structurally identical items), and a plan whose
projection mixes an ordinary column with one merely **named** "*" collapses
to the bare wildcard on the second pass (the re-projected name parses back as
a star). -/
theorem C6_materialize_twice_amended (sess : Session) (p : Plan)
    (s2 : Session) (q1 : Plan)
    (hfirst : convertLeafToCte sess p none = .ok (s2, q1))
    (hnodup : q1.expression.namedSelects.Nodup)
    (hstar : "*" ∈ q1.expression.namedSelects →
       q1.expression.namedSelects = ["*"]) :
    (convertTwice sess p).isOk = true ∧
    materializedColumns (convertTwice sess p) =
      materializedColumns (convertLeafToCte sess p none) ∧
    ∀ t : Table,
      projectTable (materializedColumns (convertTwice sess p))
        (projectTable (materializedColumns (convertLeafToCte sess p none)) t) =
        projectTable (materializedColumns (convertLeafToCte sess p none)) t := by
  obtain ⟨hq1, hjoins⟩ := convertLeafToCte_ok_shape sess p none s2 q1 hfirst
  have hnames : q1.expression.namedSelects =
      (matProjsL p.expression.projs).map ProjItem.aliasOrName := by
    unfold SelectExpr.namedSelects
    rw [hq1]
  rw [hnames] at hnodup hstar
  have hidem : matProjsL (matProjsL p.expression.projs) =
      matProjsL p.expression.projs :=
    matProjsL_idem p.expression.projs hnodup hstar
  obtain ⟨s3, q2, hsecond, hq2⟩ := convertLeafToCte_noJoins_ok s2 q1 hjoins
  have htwice : convertTwice sess p = .ok (s3, q2) := by
    unfold convertTwice
    rw [hfirst]
    exact hsecond
  have hcols : materializedColumns (convertTwice sess p) =
      materializedColumns (convertLeafToCte sess p none) := by
    rw [htwice, hfirst]
    show q2.expression.namedSelects = q1.expression.namedSelects
    unfold SelectExpr.namedSelects
    rw [hq2, hq1, hidem]
  refine ⟨by rw [htwice]; rfl, hcols, fun t => ?_⟩
  have hcols1 : materializedColumns (convertLeafToCte sess p none) =
      (matProjsL p.expression.projs).map ProjItem.aliasOrName := by
    rw [hfirst]
    exact hnames
  rw [hcols, hcols1]
  exact projectTable_idem_general _ t hstar

/-- C6, witness: a wildcard plan carrying a pending join hint — a plan class
the idempotence property covers — materializes once to the column list ["*"],
a second materialization succeeds with the same column list, and the double
projection leaves a concrete one-row table unchanged. -/
theorem C6_materialize_twice_amended_witness :
    (convertTwice (Session.mk 0 [])
        (Plan.mk (SelectExpr.mk [ProjItem.star none] (some "tbl") [] [] [] [])
          "b0" "s0" [PendingHint.joinHint "BROADCAST" ["zzz"]])).isOk = true ∧
    materializedColumns (convertTwice (Session.mk 0 [])
        (Plan.mk (SelectExpr.mk [ProjItem.star none] (some "tbl") [] [] [] [])
          "b0" "s0" [PendingHint.joinHint "BROADCAST" ["zzz"]])) =
      materializedColumns (convertLeafToCte (Session.mk 0 [])
        (Plan.mk (SelectExpr.mk [ProjItem.star none] (some "tbl") [] [] [] [])
          "b0" "s0" [PendingHint.joinHint "BROADCAST" ["zzz"]]) none) ∧
    projectTable
        (materializedColumns (convertTwice (Session.mk 0 [])
          (Plan.mk (SelectExpr.mk [ProjItem.star none] (some "tbl") [] [] [] [])
            "b0" "s0" [PendingHint.joinHint "BROADCAST" ["zzz"]])))
        (projectTable
          (materializedColumns (convertLeafToCte (Session.mk 0 [])
            (Plan.mk (SelectExpr.mk [ProjItem.star none] (some "tbl") [] [] [] [])
              "b0" "s0" [PendingHint.joinHint "BROADCAST" ["zzz"]]) none))
          [[("a", some 1), ("b", none)]]) =
      projectTable
        (materializedColumns (convertLeafToCte (Session.mk 0 [])
          (Plan.mk (SelectExpr.mk [ProjItem.star none] (some "tbl") [] [] [] [])
            "b0" "s0" [PendingHint.joinHint "BROADCAST" ["zzz"]]) none))
        [[("a", some 1), ("b", none)]] := by
  have h := C6_materialize_twice_amended (Session.mk 0 [])
    (Plan.mk (SelectExpr.mk [ProjItem.star none] (some "tbl") [] [] [] [])
      "b0" "s0" [PendingHint.joinHint "BROADCAST" ["zzz"]])
    (Session.mk 1 [])
    (Plan.mk
      (SelectExpr.mk [ProjItem.star none] (some "r0") [] []
        [("r0", "b0", "s0",
          SelectExpr.mk [ProjItem.star none] (some "tbl") [] [] [] [])] [])
      "b0" "s0" [PendingHint.joinHint "BROADCAST" ["zzz"]])
    rfl (by decide) (by decide)
  exact ⟨h.1, h.2.1, h.2.2 [[("a", some 1), ("b", none)]]⟩

/-- C6, counterexample: materializing twice is not idempotent for every plan,
and each failure forces one proviso of the amendment. A plan projecting two
different expressions under the same output name x (`a AS x, b AS x`)
materializes once to columns [x, x] but twice to [x] — the second pass
deduplicates the two now structurally identical items. A plan projecting an
ordinary column a next to an expression merely aliased to the name "*"
(`a, b AS "*"`) materializes once to columns [a, *] but twice to [*] — the
re-projected name "*" parses back as a star, which the second pass collapses
to the lone wildcard. -/
theorem C6_materialize_twice_counterexample :
    materializedColumns (convertLeafToCte (Session.mk 0 [])
        (Plan.mk (SelectExpr.mk
          [ProjItem.aliased (PBody.colRef none "a") "x",
           ProjItem.aliased (PBody.colRef none "b") "x"]
          (some "tbl") [] [] [] []) "b0" "s0" []) none) = ["x", "x"] ∧
    materializedColumns (convertTwice (Session.mk 0 [])
        (Plan.mk (SelectExpr.mk
          [ProjItem.aliased (PBody.colRef none "a") "x",
           ProjItem.aliased (PBody.colRef none "b") "x"]
          (some "tbl") [] [] [] []) "b0" "s0" [])) = ["x"] ∧
    materializedColumns (convertTwice (Session.mk 0 [])
        (Plan.mk (SelectExpr.mk
          [ProjItem.aliased (PBody.colRef none "a") "x",
           ProjItem.aliased (PBody.colRef none "b") "x"]
          (some "tbl") [] [] [] []) "b0" "s0" [])) ≠
      materializedColumns (convertLeafToCte (Session.mk 0 [])
        (Plan.mk (SelectExpr.mk
          [ProjItem.aliased (PBody.colRef none "a") "x",
           ProjItem.aliased (PBody.colRef none "b") "x"]
          (some "tbl") [] [] [] []) "b0" "s0" []) none) ∧
    materializedColumns (convertLeafToCte (Session.mk 0 [])
        (Plan.mk (SelectExpr.mk
          [ProjItem.col none "a",
           ProjItem.aliased (PBody.colRef none "b") "*"]
          (some "tbl") [] [] [] []) "b0" "s0" []) none) = ["a", "*"] ∧
    materializedColumns (convertTwice (Session.mk 0 [])
        (Plan.mk (SelectExpr.mk
          [ProjItem.col none "a",
           ProjItem.aliased (PBody.colRef none "b") "*"]
          (some "tbl") [] [] [] []) "b0" "s0" [])) = ["*"] ∧
    materializedColumns (convertTwice (Session.mk 0 [])
        (Plan.mk (SelectExpr.mk
          [ProjItem.col none "a",
           ProjItem.aliased (PBody.colRef none "b") "*"]
          (some "tbl") [] [] [] []) "b0" "s0" [])) ≠
      materializedColumns (convertLeafToCte (Session.mk 0 [])
        (Plan.mk (SelectExpr.mk
          [ProjItem.col none "a",
           ProjItem.aliased (PBody.colRef none "b") "*"]
          (some "tbl") [] [] [] []) "b0" "s0" []) none) := by
  refine ⟨by decide, by decide, by decide, by decide, by decide, by decide⟩

section UnionByName

/-- One selection item handed to `.select(...)` by `unionByName`: a plain
column name of the operand, or a synthesized `NULL AS name` for a column the
operand lacks. -/
inductive UnionItem where
  | plainCol (name : String)
  | nullAlias (name : String)
deriving DecidableEq, Repr

/-- The allowMissingColumns loop of `unionByName` (lines 368–380): walk the
left column list, pairing each name with itself on the right when the right
has it (consuming one occurrence of `r_columns_unused`, whose `remove` raises
when a duplicate left name exhausted the occurrences), or with a synthesized
null otherwise; returns the two selection lists plus the unconsumed right
columns. -/
def ubnLoop (rCols : List String) :
    List String → List UnionItem → List UnionItem → List String →
      Except String (List UnionItem × List UnionItem × List String)
  | [], lAcc, rAcc, rUnused => .ok (lAcc, rAcc, rUnused)
  | l :: ls, lAcc, rAcc, rUnused =>
      if l ∈ rCols then
        if l ∈ rUnused then
          ubnLoop rCols ls (lAcc ++ [.plainCol l]) (rAcc ++ [.plainCol l]) (rUnused.erase l)
        else .error "ValueError: list.remove(x): x not in list"
      else ubnLoop rCols ls (lAcc ++ [.plainCol l]) (rAcc ++ [.nullAlias l]) rUnused

/-- `DataFrame.unionByName` (lines 360–385), selection-list level: the pair
(l_expressions, r_expressions) of selection lists applied to the left and
right operands before the union. With allowMissingColumns unset, **both**
lists are the left plan's column list — there is no schema comparison and no
error path; with it set, missing columns are reconciled with null
literals. -/
def unionByNameExprs (lCols rCols : List String) (allowMissingColumns : Bool) :
    Except String (List UnionItem × List UnionItem) :=
  if !allowMissingColumns then
    .ok (lCols.map .plainCol, lCols.map .plainCol)
  else
    match ubnLoop rCols lCols [] [] rCols with
    | .error e => .error e
    | .ok (lAcc, rAcc, rUnused) =>
        .ok (lAcc ++ rUnused.map .nullAlias, rAcc ++ rUnused.map .plainCol)

end UnionByName

/-- C5 (amended): `unionByName` without allowMissingColumns performs **no**
schema-mismatch check and raises no error: it projects both operands onto the
left plan's column list (so a right operand missing one of those columns is
silently coerced, not reported), and null-literal reconciliation is
synthesized only in the allowMissingColumns branch — as the concrete
mismatched pair P1[a], P2[b] shows: with the flag unset both sides select
[a]; with it set the sides select [a, NULL AS b] and [NULL AS a, b]. -/
theorem C5_unionByName_amended :
    (∀ lCols rCols : List String,
        unionByNameExprs lCols rCols false =
          .ok (lCols.map UnionItem.plainCol, lCols.map UnionItem.plainCol)) ∧
    unionByNameExprs ["a"] ["b"] true =
      .ok ([UnionItem.plainCol "a", UnionItem.nullAlias "b"],
           [UnionItem.nullAlias "a", UnionItem.plainCol "b"]) := by
  refine ⟨fun lCols rCols => rfl, rfl⟩

/-- C5, counterexample: operands with the mismatched column lists [a] and [b]
and allowMissingColumns unset produce a normal result — both sides projected
onto [a] — instead of the claimed schema-mismatch error. -/
theorem C5_unionByName_counterexample :
    unionByNameExprs ["a"] ["b"] false =
      .ok ([UnionItem.plainCol "a"], [UnionItem.plainCol "a"]) ∧
    (unionByNameExprs ["a"] ["b"] false).isOk = true := by
  refine ⟨rfl, rfl⟩

section Dropna

/-- The Python exception class raised by an operation. `validationError`
models the spec's ValidationError taxonomy entry; the translated code itself
raises only `RuntimeError` / `ValueError` / `IndexError` / `TypeError`. -/
inductive PyErrorKind where
  | runtimeError
  | valueError
  | indexError
  | typeError
  | validationError
deriving DecidableEq, Repr

structure PyError where
  kind : PyErrorKind
  msg : String
deriving DecidableEq, Repr

/-- `expression.find(exp.Star)` is not none: a star node occurs anywhere in
the (sub-)tree — in this grammar stars live in projection lists, at any CTE
nesting depth. -/
def SelectExpr.hasStar : SelectExpr → Bool
  | .mk projs _ _ _ ctes _ =>
    projs.any ProjItem.isStarItem ||
      (ctes.attach.map (fun c => SelectExpr.hasStar c.1.2.2.2)).any id
decreasing_by
  obtain ⟨⟨a1, b1, c1, body⟩, pf⟩ := c
  have h1 := List.sizeOf_lt_of_mem pf
  simp at h1 ⊢
  omega

/-- `self.expression.ctes[-1].find(exp.Star) is not None` (line 412). -/
def lastCteHasStar (e : SelectExpr) : Bool :=
  match e.ctes.getLast? with
  | none => false
  | some c => c.2.2.2.hasStar

/-- The null-check target columns (lines 416–420): the explicitly named
subset when one is given (a non-empty list — Python treats `[]` as falsy), or
all current output columns. -/
def dropnaNullCheckCols (subset : Option (List String)) (e : SelectExpr) :
    List ProjItem :=
  match subset with
  | some (n1 :: ns) => (n1 :: ns).map (fun n => ProjItem.col none n)
  | _ => getOuterSelectColumns e

/-- Lines 421–424: the minimum number of null cells that triggers removal. -/
def dropnaMinNumNulls (how : String) (thresh : Option Int) (n : Nat) : Int :=
  match thresh with
  | none => if how = "any" then 1 else (n : Int)
  | some t => (n : Int) - t + 1

/-- `Column.column_expression`: the scalar expression behind a projection
item, alias stripped. -/
def projItemBody : ProjItem → PBody
  | .col t n => .colRef t n
  | .aliased b _ => b
  | .star _ => .colRef none "*"

/-- `F.when(column.isNull(), F.lit(1)).otherwise(F.lit(0))` (lines 428–431). -/
def nullIndicator (c : ProjItem) : PBody :=
  .caseNull (projItemBody c) (.lit 1) (.lit 0)

/-- `functools.reduce(lambda x, y: x + y, l)`: none on an empty list (where
Python raises TypeError). -/
def reduceAdd : List PBody → Option PBody
  | [] => none
  | x :: xs => some (xs.foldl PBody.add x)

/-- `DataFrame.dropna` (lines 410–437) on the materialized receiver (the
`@operation(Operation.FROM)` decorator, which lives outside the translated
file, materializes the plan first per the spec's materialization gate):
reject a star-containing last CTE with RuntimeError; derive the null
threshold and reject it with RuntimeError when it exceeds the subset size;
otherwise append the `num_nulls` indicator-sum column, filter on
`num_nulls < threshold`, and re-project the original columns. -/
def dropna (how : String) (thresh : Option Int) (subset : Option (List String))
    (e : SelectExpr) : Except PyError SelectExpr :=
  match e.ctes.getLast? with
  | none => .error ⟨.indexError, "list index out of range"⟩
  | some lastCte =>
    if lastCte.2.2.2.hasStar then
      .error ⟨.runtimeError, "Cannot use `dropna` when a * expression is used"⟩
    else
      let allColumns := getOuterSelectColumns e
      let ncc := dropnaNullCheckCols subset e
      let m := dropnaMinNumNulls how thresh ncc.length
      if m > (ncc.length : Int) then
        .error ⟨.runtimeError,
          "The minimum num nulls for dropna must be less than or equal to the number of columns"⟩
      else
        match reduceAdd (ncc.map nullIndicator) with
        | none => .error ⟨.typeError, "reduce of empty iterable with no initial value"⟩
        | some numNulls =>
            let e1 := e.withProjs (e.projs ++ [.aliased numNulls "num_nulls"])
            let e2 := e1.withWhere
              (e1.whereCls ++ [.lt (.colRef none "num_nulls") (.lit m)])
            .ok (e2.withProjs allColumns)

/-- Value of a scalar expression on one row (none = SQL NULL). -/
def evalBody : PBody → Row → Option Int
  | .colRef _ n, r => lookupCell r n
  | .lit n, _ => some n
  | .nullLit, _ => none
  | .caseNull s a b, r =>
      if (evalBody s r).isNone then evalBody a r else evalBody b r
  | .add a b, r =>
      match evalBody a r, evalBody b r with
      | some x, some y => some (x + y)
      | _, _ => none
  | .lt _ _, _ => none
  | .eqB _ _, _ => none
  | .andB _ _, _ => none

/-- Truth of a filter condition on one row (SQL three-valued logic: a
comparison against NULL does not keep the row). -/
def evalPred : PBody → Row → Bool
  | .lt a b, r =>
      match evalBody a r, evalBody b r with
      | some x, some y => decide (x < y)
      | _, _ => false
  | .andB a b, r => evalPred a r && evalPred b r
  | _, _ => false

/-- The number of NULL cells a row has across the checked columns. -/
def rowNullCount (r : Row) (cols : List ProjItem) : Nat :=
  (cols.filter (fun c => (evalBody (projItemBody c) r).isNone)).length

/-- The cells one projection item contributes to the output row. -/
def evalProjCell (r : Row) : ProjItem → Row
  | .col _ n => [(n, lookupCell r n)]
  | .aliased b a => [(a, evalBody b r)]
  | .star _ => r

/-- Whether the dropna filter keeps an input row: evaluate the appended
`num_nulls` projection on the row, then the appended `WHERE num_nulls <
threshold` conjunct on the extended row (none when the call errored). -/
def dropnaKeepsRow (how : String) (thresh : Option Int)
    (subset : Option (List String)) (e : SelectExpr) (r : Row) : Option Bool :=
  match dropna how thresh subset e with
  | .error _ => none
  | .ok _ =>
    let ncc := dropnaNullCheckCols subset e
    let m := dropnaMinNumNulls how thresh ncc.length
    match reduceAdd (ncc.map nullIndicator) with
    | none => none
    | some numNulls =>
        let row2 : Row :=
          List.flatten ((e.projs ++ [ProjItem.aliased numNulls "num_nulls"]).map
            (evalProjCell r))
        some (evalPred (PBody.lt (PBody.colRef none "num_nulls") (PBody.lit m)) row2)

lemma evalBody_nullIndicator (r : Row) (c : ProjItem) :
    evalBody (nullIndicator c) r =
      some (if (evalBody (projItemBody c) r).isNone then 1 else 0) := by
  unfold nullIndicator
  by_cases h : (evalBody (projItemBody c) r).isNone <;>
    simp [evalBody, h]

lemma evalBody_foldl_indicators (r : Row) :
    ∀ (cols : List ProjItem) (acc : PBody) (k : Int), evalBody acc r = some k →
      evalBody ((cols.map nullIndicator).foldl PBody.add acc) r =
        some (k + (rowNullCount r cols : Int))
  | [], acc, k, hk => by simpa [rowNullCount] using hk
  | c :: cs, acc, k, hk => by
      have hstep : evalBody (PBody.add acc (nullIndicator c)) r =
          some (k + (if (evalBody (projItemBody c) r).isNone then 1 else 0)) := by
        rw [show evalBody (PBody.add acc (nullIndicator c)) r =
              (match evalBody acc r, evalBody (nullIndicator c) r with
               | some x, some y => some (x + y)
               | _, _ => none) from rfl,
            hk, evalBody_nullIndicator]
      have hrec := evalBody_foldl_indicators r cs (PBody.add acc (nullIndicator c))
        (k + (if (evalBody (projItemBody c) r).isNone then 1 else 0)) hstep
      have hcount : (rowNullCount r (c :: cs) : Int) =
          (if (evalBody (projItemBody c) r).isNone then 1 else 0) +
            (rowNullCount r cs : Int) := by
        unfold rowNullCount
        by_cases hn : (evalBody (projItemBody c) r).isNone
        · simp only [List.filter_cons, hn, if_true, List.length_cons]
          push_cast
          ring
        · simp [List.filter_cons, hn]
      rw [List.map_cons, List.foldl_cons, hrec, hcount]
      congr 1
      ring

lemma reduceAdd_indicators (r : Row) (cols : List ProjItem) (h : cols ≠ []) :
    ∃ nn, reduceAdd (cols.map nullIndicator) = some nn ∧
      evalBody nn r = some (rowNullCount r cols : Int) := by
  cases cols with
  | nil => exact absurd rfl h
  | cons c cs =>
      refine ⟨(cs.map nullIndicator).foldl PBody.add (nullIndicator c), rfl, ?_⟩
      have hrec := evalBody_foldl_indicators r cs (nullIndicator c)
        (if (evalBody (projItemBody c) r).isNone then 1 else 0)
        (evalBody_nullIndicator r c)
      have hcount : (rowNullCount r (c :: cs) : Int) =
          (if (evalBody (projItemBody c) r).isNone then 1 else 0) +
            (rowNullCount r cs : Int) := by
        unfold rowNullCount
        by_cases hn : (evalBody (projItemBody c) r).isNone
        · simp only [List.filter_cons, hn, if_true, List.length_cons]
          push_cast
          ring
        · simp [List.filter_cons, hn]
      rw [hrec, hcount]

lemma lookupCell_append_last (xs : Row) (k : String) (v : Option Int)
    (h : ∀ c ∈ xs, c.1 ≠ k) :
    lookupCell (xs ++ [(k, v)]) k = v := by
  induction xs with
  | nil => simp [lookupCell, List.find?]
  | cons c cs ih =>
      have hc : ¬(c.1 = k) := h c (List.mem_cons_self c cs)
      unfold lookupCell at ih ⊢
      rw [List.cons_append, List.find?_cons_of_neg _ (by simpa using hc)]
      exact ih (fun d hd => h d (List.mem_cons_of_mem c hd))

lemma cellName_mem (r : Row) (projs : List ProjItem)
    (hstar : ∀ it ∈ projs, it.isStarItem = false) :
    ∀ c ∈ List.flatten (projs.map (evalProjCell r)),
      c.1 ∈ projs.map ProjItem.aliasOrName := by
  intro c hc
  rw [List.mem_flatten] at hc
  obtain ⟨l, hl, hcl⟩ := hc
  rw [List.mem_map] at hl
  obtain ⟨it, hit, rfl⟩ := hl
  cases it with
  | star al => exact absurd (hstar _ hit) (by simp [ProjItem.isStarItem])
  | col t n =>
      simp only [evalProjCell, List.mem_singleton] at hcl
      subst hcl
      exact List.mem_map_of_mem ProjItem.aliasOrName hit
  | aliased b a =>
      simp only [evalProjCell, List.mem_singleton] at hcl
      subst hcl
      exact List.mem_map_of_mem ProjItem.aliasOrName hit

end Dropna

/-- C7: the minimum number of null cells that triggers row removal is 1 for
how = "any" with no threshold, the subset size n for how = "all" with no
threshold, and n - thresh + 1 for an explicit minimum-non-null-count thresh;
the call raises exactly when this derived threshold exceeds n, and otherwise
the built filter keeps a row iff its null count over the subset is strictly
below the threshold. (Stated for a materialized, star-free receiver with a
non-empty subset whose projection does not already use the helper name
num_nulls.) -/
theorem C7_dropna_threshold (how : String) (thresh : Option Int)
    (subset : Option (List String)) (e : SelectExpr)
    (lastCte : String × String × String × SelectExpr)
    (hg : e.ctes.getLast? = some lastCte)
    (hstarLast : lastCte.2.2.2.hasStar = false)
    (hne : dropnaNullCheckCols subset e ≠ [])
    (hstarOuter : ∀ it ∈ e.projs, it.isStarItem = false)
    (hnn : "num_nulls" ∉ e.projs.map ProjItem.aliasOrName) :
    (thresh = none → how = "any" →
       dropnaMinNumNulls how thresh (dropnaNullCheckCols subset e).length = 1) ∧
    (thresh = none → how = "all" →
       dropnaMinNumNulls how thresh (dropnaNullCheckCols subset e).length =
         ((dropnaNullCheckCols subset e).length : Int)) ∧
    (∀ t : Int, thresh = some t →
       dropnaMinNumNulls how thresh (dropnaNullCheckCols subset e).length =
         ((dropnaNullCheckCols subset e).length : Int) - t + 1) ∧
    ((dropna how thresh subset e).isOk = false ↔
       dropnaMinNumNulls how thresh (dropnaNullCheckCols subset e).length >
         ((dropnaNullCheckCols subset e).length : Int)) ∧
    (∀ r : Row,
       dropnaMinNumNulls how thresh (dropnaNullCheckCols subset e).length ≤
         ((dropnaNullCheckCols subset e).length : Int) →
       dropnaKeepsRow how thresh subset e r =
         some (decide ((rowNullCount r (dropnaNullCheckCols subset e) : Int) <
           dropnaMinNumNulls how thresh (dropnaNullCheckCols subset e).length))) := by
  refine ⟨?_, ?_, ?_, ?_, ?_⟩
  · intro h1 h2
    simp [dropnaMinNumNulls, h1, h2]
  · intro h1 h2
    simp [dropnaMinNumNulls, h1, h2]
  · intro t h1
    simp [dropnaMinNumNulls, h1]
  · unfold dropna
    simp only [hg, hstarLast, Bool.false_eq_true, if_false]
    by_cases hm : dropnaMinNumNulls how thresh (dropnaNullCheckCols subset e).length >
        ((dropnaNullCheckCols subset e).length : Int)
    · rw [if_pos hm]
      simpa [Except.isOk, Except.toBool] using hm
    · rw [if_neg hm]
      obtain ⟨nn, hnn2, _⟩ := reduceAdd_indicators [] (dropnaNullCheckCols subset e) hne
      simp only [hnn2]
      simpa [Except.isOk, Except.toBool] using hm
  · intro r hm
    have hm2 : ¬ (dropnaMinNumNulls how thresh (dropnaNullCheckCols subset e).length >
        ((dropnaNullCheckCols subset e).length : Int)) := not_lt.mpr hm
    obtain ⟨nn, hnn2, hev⟩ := reduceAdd_indicators r (dropnaNullCheckCols subset e) hne
    have hok : dropna how thresh subset e =
        .ok ((((e.withProjs (e.projs ++ [ProjItem.aliased nn "num_nulls"])).withWhere
          ((e.withProjs (e.projs ++ [ProjItem.aliased nn "num_nulls"])).whereCls ++
            [PBody.lt (PBody.colRef none "num_nulls")
              (PBody.lit (dropnaMinNumNulls how thresh
                (dropnaNullCheckCols subset e).length))])).withProjs
          (getOuterSelectColumns e))) := by
      unfold dropna
      simp only [hg, hstarLast, Bool.false_eq_true, if_false]
      rw [if_neg hm2]
      simp only [hnn2]
    have hrow : lookupCell
        (List.flatten ((e.projs ++ [ProjItem.aliased nn "num_nulls"]).map
          (evalProjCell r))) "num_nulls" = evalBody nn r := by
      rw [List.map_append, List.flatten_append]
      simp only [List.map_cons, List.map_nil, List.flatten_cons, List.flatten_nil,
                 List.append_nil, evalProjCell]
      exact lookupCell_append_last _ _ _
        (fun c hc hck => hnn (hck ▸ cellName_mem r e.projs hstarOuter c hc))
    unfold dropnaKeepsRow
    rw [hok]
    simp only [hnn2]
    have h1 : evalBody (PBody.colRef none "num_nulls")
        (List.flatten ((e.projs ++ [ProjItem.aliased nn "num_nulls"]).map
          (evalProjCell r))) =
        some (rowNullCount r (dropnaNullCheckCols subset e) : Int) := by
      rw [show evalBody (PBody.colRef none "num_nulls")
            (List.flatten ((e.projs ++ [ProjItem.aliased nn "num_nulls"]).map
              (evalProjCell r))) =
          lookupCell (List.flatten ((e.projs ++ [ProjItem.aliased nn "num_nulls"]).map
            (evalProjCell r))) "num_nulls" from rfl,
          hrow, hev]
    show some (evalPred _ _) = _
    unfold evalPred
    rw [h1]
    rfl

/-- C7, witness: a materialized two-column plan (x, y), dropna(how="any")
over the subset [x]: the threshold is 1, the call succeeds (1 is not greater
than the subset size 1), and a concrete row with x NULL is kept iff its null
count 1 is below 1 (it is dropped). -/
theorem C7_dropna_threshold_witness :
    dropnaMinNumNulls "any" none (dropnaNullCheckCols (some ["x"])
      (SelectExpr.mk [ProjItem.col none "x", ProjItem.col none "y"] (some "r0") [] []
        [("r0", "b", "s", SelectExpr.mk [ProjItem.col none "x", ProjItem.col none "y"]
          (some "tbl") [] [] [] [])] [])).length = 1 ∧
    ((dropna "any" none (some ["x"])
        (SelectExpr.mk [ProjItem.col none "x", ProjItem.col none "y"] (some "r0") [] []
          [("r0", "b", "s", SelectExpr.mk [ProjItem.col none "x", ProjItem.col none "y"]
            (some "tbl") [] [] [] [])] [])).isOk = false ↔
      dropnaMinNumNulls "any" none (dropnaNullCheckCols (some ["x"])
        (SelectExpr.mk [ProjItem.col none "x", ProjItem.col none "y"] (some "r0") [] []
          [("r0", "b", "s", SelectExpr.mk [ProjItem.col none "x", ProjItem.col none "y"]
            (some "tbl") [] [] [] [])] [])).length >
        ((dropnaNullCheckCols (some ["x"])
          (SelectExpr.mk [ProjItem.col none "x", ProjItem.col none "y"] (some "r0") [] []
            [("r0", "b", "s", SelectExpr.mk [ProjItem.col none "x", ProjItem.col none "y"]
              (some "tbl") [] [] [] [])] [])).length : Int)) ∧
    dropnaKeepsRow "any" none (some ["x"])
        (SelectExpr.mk [ProjItem.col none "x", ProjItem.col none "y"] (some "r0") [] []
          [("r0", "b", "s", SelectExpr.mk [ProjItem.col none "x", ProjItem.col none "y"]
            (some "tbl") [] [] [] [])] []) [("x", none), ("y", some 2)] =
      some (decide ((rowNullCount [("x", none), ("y", some 2)]
          (dropnaNullCheckCols (some ["x"])
            (SelectExpr.mk [ProjItem.col none "x", ProjItem.col none "y"] (some "r0") [] []
              [("r0", "b", "s", SelectExpr.mk [ProjItem.col none "x", ProjItem.col none "y"]
                (some "tbl") [] [] [] [])] [])) : Int) <
        dropnaMinNumNulls "any" none (dropnaNullCheckCols (some ["x"])
          (SelectExpr.mk [ProjItem.col none "x", ProjItem.col none "y"] (some "r0") [] []
            [("r0", "b", "s", SelectExpr.mk [ProjItem.col none "x", ProjItem.col none "y"]
              (some "tbl") [] [] [] [])] [])).length)) := by
  have h := C7_dropna_threshold "any" none (some ["x"])
    (SelectExpr.mk [ProjItem.col none "x", ProjItem.col none "y"] (some "r0") [] []
      [("r0", "b", "s", SelectExpr.mk [ProjItem.col none "x", ProjItem.col none "y"]
        (some "tbl") [] [] [] [])] [])
    ("r0", "b", "s", SelectExpr.mk [ProjItem.col none "x", ProjItem.col none "y"]
      (some "tbl") [] [] [] [])
    rfl (by simp [SelectExpr.hasStar, ProjItem.isStarItem]) (by decide) (by decide)
    (by decide)
  exact ⟨h.1 rfl rfl, h.2.2.2.1, h.2.2.2.2 [("x", none), ("y", some 2)] (by decide)⟩

/-- C8 (amended): on a materialized plan whose most recent CTE contains a
star, `dropna` raises **RuntimeError** (not a ValidationError class — no such
class exists in the code) instead of returning a plan; on a star-free plan it
never raises for that reason, and on success the final projection is exactly
the original output columns, so the derived num_nulls helper column never
appears in it (unless the plan already had a column of that name). -/
theorem C8_dropna_wildcard_amended (how : String) (thresh : Option Int)
    (subset : Option (List String)) (e : SelectExpr)
    (lastCte : String × String × String × SelectExpr)
    (hg : e.ctes.getLast? = some lastCte) :
    (lastCte.2.2.2.hasStar = true →
       dropna how thresh subset e =
         .error ⟨.runtimeError, "Cannot use `dropna` when a * expression is used"⟩) ∧
    (lastCte.2.2.2.hasStar = false →
       ∀ err : PyError, dropna how thresh subset e = .error err →
         err.msg ≠ "Cannot use `dropna` when a * expression is used") ∧
    (∀ e2 : SelectExpr, dropna how thresh subset e = .ok e2 →
       e2.projs = getOuterSelectColumns e ∧
       ("num_nulls" ∉ e.projs.map ProjItem.aliasOrName →
          "num_nulls" ∉ e2.namedSelects)) := by
  refine ⟨?_, ?_, ?_⟩
  · intro hstar
    unfold dropna
    simp only [hg, hstar, if_true]
  · intro hstar err herr
    unfold dropna at herr
    simp only [hg, hstar, Bool.false_eq_true, if_false] at herr
    by_cases hm : dropnaMinNumNulls how thresh (dropnaNullCheckCols subset e).length >
        ((dropnaNullCheckCols subset e).length : Int)
    · rw [if_pos hm] at herr
      cases herr
      decide
    · rw [if_neg hm] at herr
      cases hred : reduceAdd ((dropnaNullCheckCols subset e).map nullIndicator) with
      | none =>
          simp only [hred] at herr
          cases herr
          decide
      | some nn =>
          simp only [hred] at herr
          cases herr
  · intro e2 h2
    unfold dropna at h2
    simp only [hg] at h2
    by_cases hstar : lastCte.2.2.2.hasStar = true
    · rw [if_pos hstar] at h2
      cases h2
    · simp only [hstar, if_false] at h2
      by_cases hm : dropnaMinNumNulls how thresh (dropnaNullCheckCols subset e).length >
          ((dropnaNullCheckCols subset e).length : Int)
      · rw [if_pos hm] at h2
        cases h2
      · rw [if_neg hm] at h2
        cases hred : reduceAdd ((dropnaNullCheckCols subset e).map nullIndicator) with
        | none =>
            simp only [hred] at h2
            cases h2
        | some nn =>
            simp only [hred] at h2
            cases h2
            refine ⟨by simp, fun hnn hmem => ?_⟩
            simp only [SelectExpr.namedSelects, SelectExpr.projs_withProjs] at hmem
            rw [List.mem_map] at hmem
            obtain ⟨it, hit, hname⟩ := hmem
            exact hnn (hname ▸ List.mem_map_of_mem ProjItem.aliasOrName
              (mem_firstDedup hit))

/-- C8, witness: a star-free materialized plan: dropna(how="any") succeeds and
projects exactly the original columns [x], so num_nulls does not appear. -/
theorem C8_dropna_wildcard_amended_witness :
    (∀ err : PyError,
       dropna "any" none none
         (SelectExpr.mk [ProjItem.col none "x"] (some "r0") [] []
           [("r0", "b", "s", SelectExpr.mk [ProjItem.col none "x"]
             (some "tbl") [] [] [] [])] []) = .error err →
       err.msg ≠ "Cannot use `dropna` when a * expression is used") ∧
    (∀ e2 : SelectExpr,
       dropna "any" none none
         (SelectExpr.mk [ProjItem.col none "x"] (some "r0") [] []
           [("r0", "b", "s", SelectExpr.mk [ProjItem.col none "x"]
             (some "tbl") [] [] [] [])] []) = .ok e2 →
       e2.projs = getOuterSelectColumns
         (SelectExpr.mk [ProjItem.col none "x"] (some "r0") [] []
           [("r0", "b", "s", SelectExpr.mk [ProjItem.col none "x"]
             (some "tbl") [] [] [] [])] []) ∧
       ("num_nulls" ∉ [ProjItem.col none "x"].map ProjItem.aliasOrName →
          "num_nulls" ∉ e2.namedSelects)) := by
  have h := C8_dropna_wildcard_amended "any" none none
    (SelectExpr.mk [ProjItem.col none "x"] (some "r0") [] []
      [("r0", "b", "s", SelectExpr.mk [ProjItem.col none "x"]
        (some "tbl") [] [] [] [])] [])
    ("r0", "b", "s", SelectExpr.mk [ProjItem.col none "x"] (some "tbl") [] [] [] [])
    rfl
  exact ⟨h.2.1 (by simp [SelectExpr.hasStar, ProjItem.isStarItem]), h.2.2⟩

/-- C8, counterexample: on a materialized plan projecting a wildcard, dropna
raises RuntimeError — not the ValidationError class the claim names. -/
theorem C8_dropna_wildcard_counterexample :
    dropna "any" none none
      (SelectExpr.mk [ProjItem.star none] (some "r0") [] []
        [("r0", "b", "s", SelectExpr.mk [ProjItem.star none]
          (some "tbl") [] [] [] [])] []) =
      .error ⟨PyErrorKind.runtimeError, "Cannot use `dropna` when a * expression is used"⟩ ∧
    PyErrorKind.runtimeError ≠ PyErrorKind.validationError := by
  refine ⟨?_, by decide⟩
  unfold dropna
  simp [SelectExpr.ctes, List.getLast?, SelectExpr.hasStar, ProjItem.isStarItem]

section Lineage

/-- `DataFrame.where` (lines 282–285): copy with the condition added to the
WHERE clause. -/
def whereOp (p : Plan) (cond : PBody) : Plan :=
  { p with expression := p.expression.withWhere (p.expression.whereCls ++ [cond]) }

/-- `DataFrame.select`, copy-level shape (line 269): copy with a new
projection list (appended or replacing). -/
def selectOp (p : Plan) (cols : List ProjItem) (append : Bool) : Plan :=
  { p with expression :=
      p.expression.withProjs (if append then p.expression.projs ++ cols else cols) }

/-- The pending-hint retargeting step of `DataFrame.alias` (lines 275–278):
any pending join-hint target equal to the plan's current sequence id is
rewritten to the freshly drawn one. -/
def aliasRetarget (p : Plan) (newSeq : String) : Plan :=
  { p with
      pendingHints := p.pendingHints.map (fun h =>
        match h with
        | .joinHint st ts =>
            .joinHint st (ts.map (fun t => if t = p.sequenceId then newSeq else t))
        | other => other) }

/-- `DataFrame.alias` (lines 271–280): draw a fresh sequence id, retarget
pending join hints aimed at the current sequence id, register the alias in
the session mapping, then materialize under the new sequence id. -/
def aliasOp (sess : Session) (p : Plan) (name : String) :
    Except String (Session × Plan) :=
  convertLeafToCte
    (((sess.freshName).2).addAliasToMapping name (sess.freshName).1)
    (aliasRetarget p (sess.freshName).1)
    (some (sess.freshName).1)

lemma resolvePendingHints_ids (sess : Session) (p q : Plan)
    (h : resolvePendingHints sess p = .ok q) :
    q.branchId = p.branchId ∧ q.sequenceId = p.sequenceId := by
  unfold resolvePendingHints at h
  by_cases he : p.pendingHints.isEmpty
  · rw [if_pos he] at h
    cases h
    exact ⟨rfl, rfl⟩
  · rw [if_neg he] at h
    by_cases hj : (getTablesFromExpressionWithJoin p.expression).isEmpty
    · rw [if_pos hj] at h
      cases h
      exact ⟨rfl, rfl⟩
    · rw [if_neg hj] at h
      cases hp : processJoinHints sess p.expression.ctes
          (getTablesFromExpressionWithJoin p.expression)
          (p.pendingHints.filter (fun x => !x.isPartitionHint)) with
      | error e =>
          rw [hp] at h
          cases h
      | ok pr =>
          rw [hp] at h
          cases h
          exact ⟨rfl, rfl⟩

lemma convertLeafToCte_branchId (sess : Session) (p : Plan) (sq : Option String)
    (s2 : Session) (q : Plan) (h : convertLeafToCte sess p sq = .ok (s2, q)) :
    q.branchId = p.branchId := by
  unfold convertLeafToCte at h
  cases hr : resolvePendingHints sess p with
  | error e =>
      rw [hr] at h
      cases h
  | ok df =>
      rw [hr] at h
      cases h
      exact (resolvePendingHints_ids sess p df hr).1

lemma convertLeafToCte_seqId (sess : Session) (p : Plan) (newSeq : String)
    (s2 : Session) (q : Plan)
    (h : convertLeafToCte sess p (some newSeq) = .ok (s2, q)) :
    q.sequenceId = newSeq := by
  unfold convertLeafToCte at h
  cases hr : resolvePendingHints sess p with
  | error e =>
      rw [hr] at h
      cases h
  | ok df =>
      rw [hr] at h
      cases h
      rfl

end Lineage

/-- C9 (amended): branch_id is inherited unchanged by **every** derived
operation — where, select, materialization, and also alias; alias is not an
exception: it draws a fresh **sequence id** (the hint-targeting token) and
keeps the branch id, so no operation produces a plan with a different
branch_id from its input. -/
theorem C9_branch_id_amended (sess : Session) (p : Plan) (cond : PBody)
    (cols : List ProjItem) (append : Bool) (name : String) (sq : Option String) :
    (whereOp p cond).branchId = p.branchId ∧
    (selectOp p cols append).branchId = p.branchId ∧
    (∀ s2 q, convertLeafToCte sess p sq = .ok (s2, q) → q.branchId = p.branchId) ∧
    (∀ s2 q, aliasOp sess p name = .ok (s2, q) →
       q.branchId = p.branchId ∧ q.sequenceId = (sess.freshName).1) := by
  refine ⟨rfl, rfl, fun s2 q h => convertLeafToCte_branchId sess p sq s2 q h,
          fun s2 q h => ?_⟩
  unfold aliasOp at h
  constructor
  · exact convertLeafToCte_branchId _ (aliasRetarget p (sess.freshName).1) _ _ _ h
  · exact convertLeafToCte_seqId _ (aliasRetarget p (sess.freshName).1) _ _ _ h

/-- C9, witness: where keeps branch id b0, and aliasing a concrete hint-free
plan keeps branch id b0 while adopting the fresh sequence id r0. -/
theorem C9_branch_id_amended_witness :
    (whereOp (Plan.mk (SelectExpr.mk [ProjItem.col none "a"] (some "tbl") [] [] [] [])
        "b0" "s0" []) (PBody.lit 1)).branchId = "b0" ∧
    ((Plan.mk (materializeExpr "r1" "b0" "r0"
        (SelectExpr.mk [ProjItem.col none "a"] (some "tbl") [] [] [] []))
        "b0" "r0" []).branchId = "b0" ∧
     (Plan.mk (materializeExpr "r1" "b0" "r0"
        (SelectExpr.mk [ProjItem.col none "a"] (some "tbl") [] [] [] []))
        "b0" "r0" []).sequenceId =
       ((Session.mk 0 []).freshName).1) :=
  ⟨(C9_branch_id_amended (Session.mk 0 [])
      (Plan.mk (SelectExpr.mk [ProjItem.col none "a"] (some "tbl") [] [] [] [])
        "b0" "s0" []) (PBody.lit 1) [] false "nm" none).1,
   (C9_branch_id_amended (Session.mk 0 [])
      (Plan.mk (SelectExpr.mk [ProjItem.col none "a"] (some "tbl") [] [] [] [])
        "b0" "s0" []) (PBody.lit 1) [] false "nm" none).2.2.2
     (Session.mk 2 [("nm", ["r0"])])
     (Plan.mk (materializeExpr "r1" "b0" "r0"
       (SelectExpr.mk [ProjItem.col none "a"] (some "tbl") [] [] [] []))
       "b0" "r0" [])
     rfl⟩

/-- C9, counterexample: alias does **not** produce a plan with a different
branch_id — aliasing a concrete plan with branch id b0 yields a plan whose
branch id is still b0 (only the sequence id changes, from s0 to the fresh
r0), refuting the claim that the alias operation changes branch_id. -/
theorem C9_branch_id_counterexample :
    aliasOp (Session.mk 0 [])
      (Plan.mk (SelectExpr.mk [ProjItem.col none "a"] (some "tbl") [] [] [] [])
        "b0" "s0" []) "nm" =
      .ok (Session.mk 2 [("nm", ["r0"])],
           Plan.mk (materializeExpr "r1" "b0" "r0"
             (SelectExpr.mk [ProjItem.col none "a"] (some "tbl") [] [] [] []))
             "b0" "r0" []) ∧
    (Plan.mk (materializeExpr "r1" "b0" "r0"
        (SelectExpr.mk [ProjItem.col none "a"] (some "tbl") [] [] [] []))
        "b0" "r0" []).branchId =
      (Plan.mk (SelectExpr.mk [ProjItem.col none "a"] (some "tbl") [] [] [] [])
        "b0" "s0" []).branchId := by
  refine ⟨rfl, rfl⟩

section Rename

/-- The per-node rewrite of `withColumnRenamed` (lines 550–554): a bare
column is replaced by `exp.alias_(column, new)`; any other matching
projection gets its alias set to the new identifier. -/
def renameProjTo (nw : String) : ProjItem → ProjItem
  | .col t n => .aliased (.colRef t n) nw
  | .aliased b _ => .aliased b nw
  | .star _ => .star (some nw)

/-- `DataFrame.withColumnRenamed` (lines 544–555): collect the top-level
projections whose alias-or-name equals `existing`; raise ValueError when
there are none, otherwise rename every matching projection to `new` on a
copy. -/
def withColumnRenamed (existing nw : String) (e : SelectExpr) :
    Except PyError SelectExpr :=
  let existingColumns := e.projs.filter (fun it => it.aliasOrName = existing)
  if existingColumns.isEmpty then
    .error ⟨.valueError, "Tried to rename a column that doesn't exist"⟩
  else
    .ok (e.withProjs (e.projs.map (fun it =>
      if it.aliasOrName = existing then renameProjTo nw it else it)))

@[simp] lemma aliasOrName_renameProjTo (nw : String) (it : ProjItem) :
    (renameProjTo nw it).aliasOrName = nw := by
  cases it <;> rfl

end Rename

/-- C10: `withColumnRenamed(existing, new)` raises ValueError ("Tried to
rename a column that doesn't exist") when no top-level projection has alias
or name `existing`; when at least one matches, it returns the plan with every
matching projection renamed to `new` (its alias-or-name becomes `new`) and
every other projection left unchanged. -/
theorem C10_withColumnRenamed (existing nw : String) (e : SelectExpr) :
    ((∀ it ∈ e.projs, it.aliasOrName ≠ existing) →
       withColumnRenamed existing nw e =
         .error ⟨.valueError, "Tried to rename a column that doesn't exist"⟩) ∧
    ((∃ it ∈ e.projs, it.aliasOrName = existing) →
       withColumnRenamed existing nw e =
         .ok (e.withProjs (e.projs.map (fun it =>
           if it.aliasOrName = existing then renameProjTo nw it else it))) ∧
       ∀ it ∈ e.projs,
         (it.aliasOrName = existing →
            (if it.aliasOrName = existing then renameProjTo nw it
             else it).aliasOrName = nw) ∧
         (it.aliasOrName ≠ existing →
            (if it.aliasOrName = existing then renameProjTo nw it else it) = it)) := by
  constructor
  · intro hnone
    have hnil : e.projs.filter (fun it => it.aliasOrName = existing) = [] := by
      rw [List.filter_eq_nil_iff]
      intro it hit
      simpa using hnone it hit
    unfold withColumnRenamed
    simp [hnil]
  · intro ⟨it0, hit0, heq0⟩
    have hmem : it0 ∈ e.projs.filter (fun it => it.aliasOrName = existing) :=
      List.mem_filter.mpr ⟨hit0, by simpa using heq0⟩
    have hne : ¬(e.projs.filter (fun it => it.aliasOrName = existing)).isEmpty = true := by
      intro hc
      rw [List.isEmpty_iff.mp hc] at hmem
      exact List.not_mem_nil it0 hmem
    refine ⟨by unfold withColumnRenamed; rw [if_neg hne], fun it hit => ⟨?_, ?_⟩⟩
    · intro hmatch
      rw [if_pos hmatch]
      exact aliasOrName_renameProjTo nw it
    · intro hmiss
      rw [if_neg hmiss]

/-- C10, witness: renaming x to z in a plan projecting (x, y) succeeds and
renames exactly the matching column, while renaming a missing name w raises
ValueError. -/
theorem C10_withColumnRenamed_witness :
    withColumnRenamed "w" "z"
      (SelectExpr.mk [ProjItem.col none "x", ProjItem.col none "y"]
        (some "tbl") [] [] [] []) =
      .error ⟨.valueError, "Tried to rename a column that doesn't exist"⟩ ∧
    withColumnRenamed "x" "z"
      (SelectExpr.mk [ProjItem.col none "x", ProjItem.col none "y"]
        (some "tbl") [] [] [] []) =
      .ok ((SelectExpr.mk [ProjItem.col none "x", ProjItem.col none "y"]
          (some "tbl") [] [] [] []).withProjs
        ((SelectExpr.mk [ProjItem.col none "x", ProjItem.col none "y"]
          (some "tbl") [] [] [] []).projs.map (fun it =>
            if it.aliasOrName = "x" then renameProjTo "z" it else it))) :=
  ⟨(C10_withColumnRenamed "w" "z"
      (SelectExpr.mk [ProjItem.col none "x", ProjItem.col none "y"]
        (some "tbl") [] [] [] [])).1
     (fun it hit => by
       rcases List.mem_cons.mp hit with rfl | hit2
       · decide
       · rcases List.mem_cons.mp hit2 with rfl | hit3
         · decide
         · exact absurd hit3 (List.not_mem_nil it)),
   ((C10_withColumnRenamed "x" "z"
      (SelectExpr.mk [ProjItem.col none "x", ProjItem.col none "y"]
        (some "tbl") [] [] [] [])).2
     ⟨ProjItem.col none "x", List.mem_cons_self _ _, rfl⟩).1⟩

end SqlglotDF
